import Mathlib

/-!
Verification of the feature-matrix processing core of the Analysis-application
repository (frontend/src/utils/chartDataProcessor.js and the timeline chart
component): column classification and cleaning, median imputation, semantic
feature categorization, Pearson correlation, z-score normalization, and the
multi-plant timeline aggregation.

JavaScript values flowing through these functions are modelled by `JVal`
(null, finite number, string); numbers are modelled as rationals (the claims
under verification are structural — which cell is written, which branch is
taken — and do not depend on binary floating point rounding).  `Math.sqrt`
is modelled by `Real.sqrt`, so the correlation matrix carries real entries.
-/

/-- A JavaScript value as it appears in the feature records: `null`
(or a missing/`undefined` cell where an `Option JVal` is used), a finite
number, or a string.  The data served by the API is JSON, which cannot
carry `NaN`/`Infinity`, so numbers are finite rationals. -/
inductive JVal where
  | vnull : JVal
  | vnum (q : ℚ) : JVal
  | vstr (s : String) : JVal
deriving DecidableEq, Repr

/-- ASCII whitespace recognised when trimming a numeric string
(models the characters `Number()` ignores at the ends of a string). -/
def wsChar (c : Char) : Bool :=
  c.toNat = 32 || (9 ≤ c.toNat && c.toNat ≤ 13)

/-- Trim whitespace from both ends of a character list. -/
def jsTrimChars (l : List Char) : List Char :=
  ((l.dropWhile wsChar).reverse.dropWhile wsChar).reverse

/-- Decimal digit test on a character. -/
def isDigitCh (c : Char) : Bool :=
  decide (48 ≤ c.toNat) && decide (c.toNat ≤ 57)

/-- Value of a list of decimal digits, `none` if a non-digit occurs. -/
def digitsToNat (l : List Char) : Option ℕ :=
  l.foldl
    (fun acc c =>
      match acc with
      | none => none
      | some n => if isDigitCh c then some (n * 10 + (c.toNat - 48)) else none)
    (some 0)

/-- Split a character list at the first `'.'`; the second component is
`none` when there is no dot. -/
def splitDotCh (l : List Char) : List Char × Option (List Char) :=
  match l.span (fun c => !(c == '.')) with
  | (a, []) => (a, none)
  | (a, _ :: rest) => (a, some rest)

/-- Models the JavaScript `Number()` coercion on strings, for the decimal
fragment of its grammar: the trimmed empty string is `0`, an optionally
signed decimal literal (digits, optionally with one dot) is its value, and
anything else is `NaN` (`none`).  Hexadecimal, exponent and `Infinity`
literals are not modelled; no input of the claims under verification uses
them. -/
def jsParseNum (s : String) : Option ℚ :=
  let t := jsTrimChars s.toList
  if t.isEmpty then some 0
  else
    let sgn : ℤ × List Char :=
      match t with
      | '-' :: r => (-1, r)
      | '+' :: r => (1, r)
      | _ => (1, t)
    match splitDotCh sgn.2 with
    | (ip, none) =>
      if ip.isEmpty then none
      else (digitsToNat ip).map (fun n => mkRat (sgn.1 * n) 1)
    | (ip, some fp) =>
      if fp.contains '.' then none
      else if ip.isEmpty && fp.isEmpty then none
      else
        match digitsToNat ip, digitsToNat fp with
        | some i, some f =>
          some (mkRat (sgn.1 * (i * 10 ^ fp.length + f)) (10 ^ fp.length))
        | _, _ => none

/-- `Number(v)` for a `JVal`: `Number(null) = 0`, numbers are themselves,
strings go through `jsParseNum`; `none` models `NaN`. -/
def toNumber : JVal → Option ℚ
  | .vnull => some 0
  | .vnum q => some q
  | .vstr s => jsParseNum s

/-- Models `isFinite(v)` (with JavaScript's implicit numeric coercion) on a
`JVal`: in this model every successfully parsed number is finite, so the
test is exactly "the coercion does not yield `NaN`". -/
def jsIsFiniteNum (v : JVal) : Bool :=
  (toNumber v).isSome

/-- A JavaScript object (a feature record row): association list from key to
value.  A key absent from the list is JavaScript `undefined`. -/
abbrev Obj := List (String × JVal)

/-- `row[k]`: `none` models `undefined`. -/
def jsGet (row : Obj) (k : String) : Option JVal :=
  row.lookup k

/-- Models the JavaScript test `v != null`, which is false exactly for
`null` and `undefined`. -/
def notNullish : Option JVal → Bool
  | none => false
  | some .vnull => false
  | some _ => true

/-! ## Column Classifier & Cleaner (`loadAndCleanFeatures`) -/

/-- The fixed identifier set excluded from feature detection. -/
def excludedCols : List String :=
  ["date_key", "date_numeric", "plant", "plant_num", "cluster", "cluster_num", "mutation"]

/-- `Object.keys(df[0] || {})`. -/
def allColumns (df : List Obj) : List String :=
  (df.headD []).map Prod.fst

/-- `df.slice(0, 100).map(row => row[col]).filter(v => v != null)`. -/
def sampleVals (df : List Obj) (col : String) : List JVal :=
  ((df.take 100).map (fun r => jsGet r col)).filterMap
    (fun v => if notNullish v then v else none)

/-- The numeric-feature test of `loadAndCleanFeatures`: identifier columns
are excluded, otherwise the sampled values (nulls skipped) must be non-empty
and more than half of them must parse as finite numbers. -/
def isFeatureCol (df : List Obj) (col : String) : Bool :=
  if excludedCols.contains col then false
  else
    let sample := sampleVals df col
    if sample.length = 0 then false
    else
      let numericCount := (sample.filter (fun v => (toNumber v).isSome)).length
      decide (((numericCount : ℚ) / (sample.length : ℚ)) > 1 / 2)

/-- The detected feature columns, in first-record key order. -/
def featureColumns (df : List Obj) : List String :=
  (allColumns df).filter (fun c => isFeatureCol df c)

/-- `['plant', 'date_key', 'plant_num', 'mutation', ...featureColumns]`. -/
def keepColumns (df : List Obj) : List String :=
  ["plant", "date_key", "plant_num", "mutation"] ++ featureColumns df

/-- Per-cell cleaning: `null`/`undefined`/`''` become `null`; otherwise a
string that parses as a number is replaced by that number, and a
non-parsing string is kept as-is. -/
def cleanVal : Option JVal → JVal
  | none => .vnull
  | some .vnull => .vnull
  | some (.vnum q) => .vnum q
  | some (.vstr s) =>
    if s = "" then .vnull
    else
      match jsParseNum s with
      | some q => .vnum q
      | none => .vstr s

/-- A cleaned row: exactly the kept columns, each cell cleaned. -/
def cleanRow (keep : List String) (row : Obj) : Obj :=
  keep.map (fun c => (c, cleanVal (jsGet row c)))

/-- The cleaned rows before imputation. -/
def cleanedData0 (df : List Obj) : List Obj :=
  df.map (cleanRow (keepColumns df))

/-- The values of a column that pass `v != null && isFinite(v)` on cleaned
rows.  After `cleanVal`, every numerically-parsing string has already been
converted to a number (see `cleanVal_no_parsing_str`), so these are exactly
the numeric cells. -/
def medianPool (rows : List Obj) (col : String) : List ℚ :=
  rows.filterMap (fun r =>
    match jsGet r col with
    | some (.vnum q) => some q
    | _ => none)

/-- The pool sorted ascending (`values.sort((a, b) => a - b)`); the sorting
algorithm JavaScript uses is unspecified, any correct sort is faithful. -/
def sortedPool (rows : List Obj) (col : String) : List ℚ :=
  List.insertionSort (· ≤ ·) (medianPool rows col)

/-- `medians[col] || 0`: the element at index `⌊n/2⌋` of the sorted pool,
`0` when the pool is empty. -/
def fillValue (rows : List Obj) (col : String) : ℚ :=
  (sortedPool rows col).getD ((medianPool rows col).length / 2) 0

/-- Median imputation over one cleaned row: every feature cell that is
`null` or not finite is overwritten with the column's fill value. -/
def imputeRow (featCols : List String) (rows : List Obj) (row : Obj) : Obj :=
  row.map (fun kv =>
    if featCols.contains kv.1 && (decide (kv.2 = .vnull) || !(jsIsFiniteNum kv.2)) then
      (kv.1, .vnum (fillValue rows kv.1))
    else kv)

/-- Result record of `loadAndCleanFeatures`.  On empty input the source
returns `{data: [], columns: []}` (leaving `featureColumns` `undefined`);
the absent field is modelled by `[]`. -/
structure CleanResult where
  data : List Obj
  columns : List String
  featureColumns : List String
deriving Repr

/-- `loadAndCleanFeatures`: classify columns, restrict rows to kept columns,
clean cells, then impute every missing/non-finite feature cell with the
column median. -/
def loadAndCleanFeatures (df : List Obj) : CleanResult :=
  if df.isEmpty then ⟨[], [], []⟩
  else
    let cd := cleanedData0 df
    ⟨cd.map (imputeRow (featureColumns df) cd), keepColumns df, featureColumns df⟩

/-! ## Feature Categorizer (`splitFeatureGroups`) -/

/-- Lowercase an ASCII letter (models `String.prototype.toLowerCase` on the
ASCII column names this code sees). -/
def lowerCh (c : Char) : Char :=
  if 65 ≤ c.toNat ∧ c.toNat ≤ 90 then Char.ofNat (c.toNat + 32) else c

/-- Does `hay` start with `pat`? -/
def leadsWith : List Char → List Char → Bool
  | [], _ => true
  | _ :: _, [] => false
  | a :: as, b :: bs => a == b && leadsWith as bs

/-- Does `hay` contain `pat` as a contiguous segment
(models `String.prototype.includes`)? -/
def hasSegment : List Char → List Char → Bool
  | [], n => n.isEmpty
  | c :: t, n => leadsWith n (c :: t) || hasSegment t n

/-- `col.startsWith(p)`. -/
def jsStartsWithStr (col p : String) : Bool :=
  leadsWith p.toList col.toList

/-- `col.toLowerCase().includes(k)`. -/
def inclLower (col k : String) : Bool :=
  hasSegment (col.toList.map lowerCh) k.toList

def vegKeys : List String :=
  ["ndvi", "gndvi", "rdvi", "mcari", "tcari", "savi", "osavi", "evi", "ari",
   "pvi", "dvi", "ccci", "cire", "msavi", "wdvi", "lci"]

def texKeys : List String :=
  ["hog", "lbp", "lac", "ehd", "texture_"]

def morphKeys : List String :=
  ["morph_", "height", "width", "area", "perimeter", "circularity", "extent",
   "solidity", "eccentricity", "equivalent_diameter", "roundness", "bbox", "convex"]

/-- The vegetation branch condition of the `if`/`else if` chain. -/
def vegCond (col : String) : Bool :=
  jsStartsWithStr col "veg_" || vegKeys.any (fun k => inclLower col k)

/-- The texture branch condition. -/
def texCond (col : String) : Bool :=
  jsStartsWithStr col "texture_" || texKeys.any (fun k => inclLower col k)

/-- The morphology branch condition. -/
def morphCond (col : String) : Bool :=
  jsStartsWithStr col "morph_" || morphKeys.any (fun k => inclLower col k)

structure FeatureGroups where
  Vegetation : List String
  Texture : List String
  Morphology : List String
deriving Repr, DecidableEq

/-- `splitFeatureGroups`: each column is pushed into the first of the three
branch conditions it satisfies (the `forEach` with an `if`/`else if` chain
is equivalently three order-preserving filters). -/
def splitFeatureGroups (columns : List String) : FeatureGroups where
  Vegetation := columns.filter vegCond
  Texture := columns.filter (fun c => !vegCond c && texCond c)
  Morphology := columns.filter (fun c => !vegCond c && !texCond c && morphCond c)

/-! ## Pearson correlation (`computeCorrelationMatrix`) -/

/-- `(val != null && isFinite(val)) ? val : 0` over a cleaned cell.  Cleaned
rows hold only numbers, `null`, and non-numeric strings (which coerce to
`NaN`), so the kept values are exactly the numeric cells. -/
def corrCell (v : Option JVal) : ℝ :=
  match v with
  | some (.vnum q) => (q : ℝ)
  | _ => 0

/-- `values[col] = data.map(row => ...)`. -/
noncomputable def colValues (data : List Obj) (col : String) : List ℝ :=
  data.map (fun r => corrCell (jsGet r col))

/-- `x.reduce((a, b) => a + b, 0) / x.length`. -/
noncomputable def jsMean (x : List ℝ) : ℝ :=
  x.sum / (x.length : ℝ)

/-- `Σ_{i<n} (y[i] - meanY)²`: the accumulation of `dy * dy` over the loop
`for (i = 0; i < n; i++)`. -/
noncomputable def sumSqDevOver (n : ℕ) (y : List ℝ) : ℝ :=
  ((List.range n).map (fun i => (y.getD i 0 - jsMean y) * (y.getD i 0 - jsMean y))).sum

/-- Sum of squared deviations of a vector from its mean. -/
noncomputable def sumSqDev (x : List ℝ) : ℝ :=
  sumSqDevOver x.length x

/-- The accumulation of `dx * dy` over the same loop. -/
noncomputable def corrNumerator (x y : List ℝ) : ℝ :=
  ((List.range x.length).map
    (fun i => (x.getD i 0 - jsMean x) * (y.getD i 0 - jsMean y))).sum

/-- One off-diagonal correlation entry: the loop bound is `x.length` for all
three accumulators (`numerator`, `sumSqX`, `sumSqY`), as in the source;
`denominator > 0` guards the division and a non-positive denominator
yields `0`. -/
noncomputable def corrEntry (x y : List ℝ) : ℝ :=
  if 0 < Real.sqrt (sumSqDevOver x.length x * sumSqDevOver x.length y) then
    corrNumerator x y / Real.sqrt (sumSqDevOver x.length x * sumSqDevOver x.length y)
  else 0

structure CorrResult where
  matrix : List (List ℝ)
  columns : List String

/-- `computeCorrelationMatrix`: empty data or column list yields the empty
result; otherwise the matrix is built per column-name pair, with `1.0`
short-circuited on equal names. -/
noncomputable def computeCorrelationMatrix (data : List Obj) (columns : List String) :
    CorrResult :=
  if data.isEmpty || columns.isEmpty then ⟨[], []⟩
  else
    ⟨columns.map (fun c1 => columns.map (fun c2 =>
        if c1 = c2 then 1 else corrEntry (colValues data c1) (colValues data c2))),
     columns⟩

/-! ## Correlation heatmap rendering (`renderCorrelationHeatmap`) -/

inductive CorrChartType where
  | all | vegetation | texture | morphology
deriving DecidableEq, Repr

/-- The column list the heatmap uses for a given chart type. -/
def corrColsFor (df : List Obj) (t : CorrChartType) : List String :=
  let cleaned := loadAndCleanFeatures df
  let groups := splitFeatureGroups cleaned.featureColumns
  match t with
  | .all => cleaned.featureColumns
  | .vegetation => groups.Vegetation
  | .texture => groups.Texture
  | .morphology => groups.Morphology

/-- Outcome of `renderCorrelationHeatmap`: either the user-visible error
message, or the plotted (upper-triangle-masked) matrix with its axis
labels.  The Plotly layout itself is presentation and not modelled. -/
inductive HeatmapOutcome where
  | err (msg : String)
  | plot (z : List (List (Option ℝ))) (axis : List String)

/-- `renderCorrelationHeatmap`: fewer than 2 columns sets the error message
and returns; otherwise the correlation matrix is computed, the lower
triangle and diagonal are masked to `null`, and the result is plotted. -/
noncomputable def renderCorrelationHeatmap (processedData : List Obj) (t : CorrChartType) :
    HeatmapOutcome :=
  let columns := corrColsFor processedData t
  if columns.length < 2 then .err "Not enough features for correlation matrix"
  else
    let R := computeCorrelationMatrix (loadAndCleanFeatures processedData).data columns
    let masked := R.matrix.enum.map (fun ir =>
      ir.2.enum.map (fun jv => if jv.1 ≤ ir.1 then none else some jv.2))
    .plot masked R.columns

/-! ## Multi-plant timeline aggregation (`getChartData` and friends) -/

/-- One row of a per-plant timeline response: the per-entity timeline
accessors return `{date, mean, median, std, q25, q75, min, max}` rows. -/
structure TimelinePoint where
  date : String
  mean : ℚ
  median : ℚ
  std : ℚ
  q25 : ℚ
  q75 : ℚ
  min : ℚ
  max : ℚ
deriving DecidableEq, Repr

/-- The seven selectable statistics. -/
inductive StatKind where
  | mean | median | std | q25 | q75 | min | max
deriving DecidableEq, Repr

def statOf : StatKind → TimelinePoint → ℚ
  | .mean, p => p.mean
  | .median, p => p.median
  | .std, p => p.std
  | .q25, p => p.q25
  | .q75, p => p.q75
  | .min, p => p.min
  | .max, p => p.max

/-- JavaScript string comparison `a < b` (UTF-16 code-unit lexicographic
order) on character lists. -/
def lexLtCh : List Char → List Char → Bool
  | [], [] => false
  | [], _ :: _ => true
  | _ :: _, [] => false
  | a :: as, b :: bs =>
    if a.toNat < b.toNat then true
    else if b.toNat < a.toNat then false
    else lexLtCh as bs

/-- The order the date comparator `(a, b) => a < b ? -1 : a > b ? 1 : 0`
sorts by: `a` precedes `b` unless `b < a` as strings. -/
def dateLe (a b : String) : Prop :=
  lexLtCh b.toList a.toList = false

instance : DecidableRel dateLe := fun _ _ => instDecidableEqBool _ _

/-- Insertion-order deduplication: `Array.from(new Set(l))`. -/
def dedupFirst (l : List String) : List String :=
  l.foldl (fun acc d => if acc.contains d then acc else acc ++ [d]) []

/-- The state of the timeline chart component that `getChartData` reads:
the selected plant ids, the fallback plant id, the per-plant loaded
timeline rows for the active feature type (the vegetation, texture and
morphology branches are isomorphic and modelled by this one slot), the
date-range bounds (`none` models the falsy empty string), and the
statistic toggles. -/
structure ChartState where
  selectedPlantIds : List String
  actualPlantId : Option String
  multiPlantData : List (String × List TimelinePoint)
  startDate : Option String
  endDate : Option String
  showMean : Bool
  showMedian : Bool
  showStd : Bool
  showQ25 : Bool
  showQ75 : Bool
  showMin : Bool
  showMax : Bool

/-- `isDateInRange`. -/
def isDateInRange (st : ChartState) (d : String) : Bool :=
  (match st.startDate with
   | some s => !(lexLtCh d.toList s.toList)
   | none => true) &&
  (match st.endDate with
   | some e => !(lexLtCh e.toList d.toList)
   | none => true)

/-- The plant-tagged, range-filtered timeline rows (`allTimelineData`). -/
def taggedData (st : ChartState) (plants : List String) : List (String × TimelinePoint) :=
  plants.flatMap (fun p =>
    match st.multiPlantData.lookup p with
    | some pts => (pts.filter (fun tp => isDateInRange st tp.date)).map (fun tp => (p, tp))
    | none => [])

/-- The statistics enabled by the toggles, in the fixed order the source
pushes datasets. -/
def statList (st : ChartState) : List StatKind :=
  (if st.showMean then [StatKind.mean] else []) ++
  (if st.showMedian then [StatKind.median] else []) ++
  (if st.showStd then [StatKind.std] else []) ++
  (if st.showQ25 then [StatKind.q25] else []) ++
  (if st.showQ75 then [StatKind.q75] else []) ++
  (if st.showMin then [StatKind.min] else []) ++
  (if st.showMax then [StatKind.max] else [])

/-- `getDataForStat`: the value array aligned to the axis; the
`plantDataByDate` object keeps the last row written for a date. -/
def seriesFor (tagged : List (String × TimelinePoint)) (axis : List String)
    (p : String) (k : StatKind) : List (Option ℚ) :=
  axis.map (fun d =>
    match (((tagged.filter (fun x => x.1 == p)).map Prod.snd).filter
        (fun tp => tp.date == d)).getLast? with
    | some tp => some (statOf k tp)
    | none => none)

/-- One chart dataset: plant, statistic, aligned value array (colors and
marker shapes are presentation and not modelled). -/
structure Dataset where
  plantId : String
  statistic : StatKind
  data : List (Option ℚ)
deriving DecidableEq, Repr

/-- `getChartData`: collect the range-filtered rows of every displayed
plant, sort the set of their dates by the JavaScript string comparator to
form the shared axis (the source then maps them through `formatDate` for
display labels, a 1:1 presentation step not modelled), and build one
dataset per (plant, enabled statistic). -/
def getChartData (st : ChartState) : List String × List Dataset :=
  let plantsToDisplay :=
    if !st.selectedPlantIds.isEmpty then st.selectedPlantIds
    else
      match st.actualPlantId with
      | some a => [a]
      | none => []
  if plantsToDisplay.isEmpty then ([], [])
  else
    let tagged := taggedData st plantsToDisplay
    if tagged.isEmpty then ([], [])
    else
      let axis := List.insertionSort dateLe (dedupFirst (tagged.map (fun x => x.2.date)))
      (axis,
       plantsToDisplay.flatMap (fun p =>
         (statList st).map (fun k => Dataset.mk p k (seriesFor tagged axis p k))))

/-- Calendar value of a `YYYY-MM-DD` string: `y * 10000 + m * 100 + d`. -/
def dateValChars : List Char → ℕ
  | [y1, y2, y3, y4, _, m1, m2, _, d1, d2] =>
    ((((y1.toNat - 48) * 10 + (y2.toNat - 48)) * 10 + (y3.toNat - 48)) * 10 +
        (y4.toNat - 48)) * 10000 +
      ((m1.toNat - 48) * 10 + (m2.toNat - 48)) * 100 +
      ((d1.toNat - 48) * 10 + (d2.toNat - 48))
  | _ => 0

def dateVal (s : String) : ℕ :=
  dateValChars s.toList

/-- Well-formedness of a `YYYY-MM-DD` date string (the format the backend
serves, as the source's comments state). -/
def isValidISO (s : String) : Bool :=
  match s.toList with
  | [y1, y2, y3, y4, x, m1, m2, y, d1, d2] =>
    isDigitCh y1 && isDigitCh y2 && isDigitCh y3 && isDigitCh y4 &&
      (x == '-') && isDigitCh m1 && isDigitCh m2 && (y == '-') &&
      isDigitCh d1 && isDigitCh d2
  | _ => false

/-! ## Per-plant timeline loading (`loadTimelineData`) -/

/-- The per-plant body of `loadTimelineData`: each selected plant's fetch is
awaited inside its own `try`/`catch`, and a failure stores `[]` in that
plant's slot.  The promises write into distinct per-plant slots, so the
concurrent `Promise.all` is modelled by a map over the plant list; a fetch
is an `Except` value (`error` models a rejected promise). -/
def loadTimelineResults (fetch : String → Except String (List TimelinePoint))
    (plants : List String) : List (String × List TimelinePoint) :=
  plants.map (fun p =>
    (p, match fetch p with
        | .ok response => response
        | .error _ => []))

/-! ## Plant selection (`addPlant` / `removePlant` / `onPlantsChange`) -/

/-- A dropdown option `{value, label}`. -/
structure PlantOption where
  value : String
  label : String
deriving DecidableEq, Repr

/-- The selection state the handlers read and write: the dropdown's pending
choice (`""` is the falsy empty selection) and the list of selected plant
options, plus the available options. -/
structure SelState where
  tempSelectedPlant : String
  selectedPlants : List PlantOption
  plantOptions : List PlantOption
deriving DecidableEq, Repr

def selectedPlantIdsOf (s : SelState) : List String :=
  s.selectedPlants.map PlantOption.value

def isPlantSelected (s : SelState) (plantId : String) : Bool :=
  (selectedPlantIdsOf s).contains plantId

/-- The selection-state effect of `onPlantsChange`: the selection is clamped
to at most 3 plants.  (The handler also drops cached data of removed plants
and re-triggers loading; those effects do not touch `selectedPlants`.) -/
def onPlantsChangeSel (s : SelState) : SelState :=
  { s with selectedPlants := s.selectedPlants.take 3 }

/-- `addPlant`: an empty pending choice or an already-full (3) selection
resets the dropdown and returns; an already-selected id resets the dropdown
and returns; otherwise the matching option is pushed and `onPlantsChange`
runs.  When no option matches, the state is returned unchanged (the source
resets the dropdown only inside the `if (plantOption)` branch). -/
def addPlant (s : SelState) : SelState :=
  if s.tempSelectedPlant = "" ∨ 3 ≤ s.selectedPlants.length then
    { s with tempSelectedPlant := "" }
  else if isPlantSelected s s.tempSelectedPlant then
    { s with tempSelectedPlant := "" }
  else
    match s.plantOptions.find? (fun o => o.value == s.tempSelectedPlant) with
    | some o =>
      onPlantsChangeSel
        { s with selectedPlants := s.selectedPlants ++ [o], tempSelectedPlant := "" }
    | none => s

/-- `removePlant(index)`: splice out the index if it is in range, then run
`onPlantsChange`. -/
def removePlant (s : SelState) (index : ℕ) : SelState :=
  if index < s.selectedPlants.length then
    onPlantsChangeSel { s with selectedPlants := s.selectedPlants.eraseIdx index }
  else s

/-! ## Heap model for the mutation-freedom claims

`loadAndCleanFeatures` and `zscoreNormalize` mutate row objects in place
(`row[col] = ...`), but only ever rows they freshly allocated (`{}` in the
cleaner's `map`, `{...row}` in the normalizer's).  To state that the
caller's records are untouched, objects live in an explicit heap (a list of
objects indexed by address); allocation appends at the end, mutation is
`List.set`. -/

abbrev Heap := List Obj

/-- Read the object at an address (a dangling address reads `{}`). -/
def readObj (h : Heap) (a : ℕ) : Obj :=
  h.getD a []

/-- Overwrite the object at an address. -/
def writeObj (h : Heap) (a : ℕ) (o : Obj) : Heap :=
  h.set a o

/-- Heap-level `loadAndCleanFeatures`: reads the input rows through their
addresses, allocates the cleaned rows as fresh objects, computes the
medians from the cleaned rows, then imputes by writing into the fresh
addresses only.  Returns the final heap, the addresses of the cleaned
rows, and the kept/feature column lists. -/
def loadAndCleanFeaturesHeap (h : Heap) (addrs : List ℕ) :
    Heap × List ℕ × List String × List String :=
  let df := addrs.map (readObj h)
  if df.isEmpty then (h, [], [], [])
  else
    let keep := keepColumns df
    let featCols := featureColumns df
    let base := h.length
    let h1 := h ++ df.map (cleanRow keep)
    let cleanedAddrs := (List.range df.length).map (fun i => base + i)
    let pool := cleanedData0 df
    let h2 := cleanedAddrs.foldl
      (fun hh a => writeObj hh a (imputeRow featCols pool (readObj hh a))) h1
    (h2, cleanedAddrs, keep, featCols)

/-- Heap-level `zscoreNormalize`.  `result = data.map(row => ({...row}))`
allocates fresh copies; each selected column is then normalized in place on
those copies, sequentially (later columns see earlier columns' writes, as
in the source's `forEach`).  JavaScript computes `Math.sqrt(variance)` in
floating point; the claim proved about this function (the caller's rows
are never written) is independent of the numeric values, so the square
root is abstracted as the parameter `sqrtFn` and the theorem quantifies
over it. -/
def zscoreNormalizeHeap (sqrtFn : ℚ → ℚ) (h : Heap) (addrs : List ℕ)
    (columns : List String) : Heap × List ℕ :=
  let base := h.length
  let h1 := h ++ addrs.map (readObj h)
  let resAddrs := (List.range addrs.length).map (fun i => base + i)
  let h2 := columns.foldl
    (fun hh col =>
      let values := resAddrs.filterMap (fun a =>
        match jsGet (readObj hh a) col with
        | some (.vnum q) => some q
        | _ => none)
      if values.isEmpty then hh
      else
        let mean := (values.sum) / (values.length : ℚ)
        let variance :=
          (values.map (fun v => (v - mean) * (v - mean))).sum / (values.length : ℚ)
        let std := sqrtFn variance
        if 0 < std then
          resAddrs.foldl
            (fun hh2 a =>
              writeObj hh2 a
                ((readObj hh2 a).map (fun kv =>
                  match kv.2 with
                  | .vnum q =>
                    if kv.1 == col then (kv.1, JVal.vnum ((q - mean) / std)) else kv
                  | _ => kv)))
            hh
        else hh)
    h1
  (h2, resAddrs)

/-! ## Basic lemmas about the cleaner -/

/-- The ratio test of the classifier, restated over naturals: for a
non-empty sample, `count / length > 0.5` iff `length < 2 * count`. -/
lemma ratio_gt_half_iff (c n : ℕ) (hn : n ≠ 0) :
    (((c : ℚ) / (n : ℚ)) > 1 / 2) ↔ n < 2 * c := by
  have hn' : (0 : ℚ) < (n : ℚ) := by exact_mod_cast Nat.pos_of_ne_zero hn
  rw [gt_iff_lt, div_lt_div_iff₀ (by norm_num) hn']
  constructor
  · intro h
    have h2 : (n : ℚ) < 2 * (c : ℚ) := by linarith
    exact_mod_cast h2
  · intro h
    have h2 : (n : ℚ) < 2 * (c : ℚ) := by exact_mod_cast h
    linarith

/-- `isFeatureCol` computed without rational division (used to evaluate the
classifier on concrete inputs). -/
lemma isFeatureCol_eq (df : List Obj) (col : String) :
    isFeatureCol df col =
      (!(excludedCols.contains col) &&
        !((sampleVals df col).length == 0) &&
        decide ((sampleVals df col).length <
          2 * ((sampleVals df col).filter (fun v => (toNumber v).isSome)).length)) := by
  by_cases h1 : col ∈ excludedCols
  · have hb : excludedCols.contains col = true := by simpa using h1
    simp [isFeatureCol, hb, h1]
  · have h1 : ¬ excludedCols.contains col = true := by simpa using h1
    by_cases h2 : (sampleVals df col).length = 0
    · simp [isFeatureCol, h1, h2]
    · have h1' : excludedCols.contains col = false := by simpa using h1
      have h2' : ((sampleVals df col).length == 0) = false := by simpa using h2
      simp only [isFeatureCol, if_neg h1, if_neg h2, h1', h2', Bool.not_false, Bool.true_and]
      simp only [Bool.false_eq_true, if_false]
      rw [decide_eq_decide]
      exact ratio_gt_half_iff _ _ h2

/-- `cleanVal` never produces a string that parses as a number: such
strings are converted to numbers during cleaning. -/
lemma cleanVal_no_parsing_str (v : Option JVal) (s : String) :
    cleanVal v = .vstr s → jsParseNum s = none := by
  unfold cleanVal
  match v with
  | none => simp
  | some .vnull => simp
  | some (.vnum q) => simp
  | some (.vstr t) =>
    intro h
    by_cases ht : t = ""
    · simp [ht] at h
    · simp only [ht, if_false] at h
      cases hp : jsParseNum t with
      | some q => simp [hp] at h
      | none =>
        simp only [hp] at h
        cases h
        exact hp

/-! ## C7: the selection cap -/

/-- C7 — The entity selection never exceeds 3 plants: starting from a
selection of at most 3, `addPlant`, `removePlant` and `onPlantsChange` all
leave at most 3 selected, and when exactly 3 are selected `addPlant` leaves
the selected-plant list unchanged (adding a 4th is a no-op). -/
theorem addPlant_cap_and_noop (s : SelState) (h : s.selectedPlants.length ≤ 3) :
    (addPlant s).selectedPlants.length ≤ 3 ∧
    (∀ i, (removePlant s i).selectedPlants.length ≤ 3) ∧
    (onPlantsChangeSel s).selectedPlants.length ≤ 3 ∧
    (s.selectedPlants.length = 3 → (addPlant s).selectedPlants = s.selectedPlants) := by
  refine ⟨?_, ?_, ?_, ?_⟩
  · unfold addPlant
    split_ifs with h1 h2
    · simpa using h
    · simpa using h
    · cases hf : s.plantOptions.find? (fun o => o.value == s.tempSelectedPlant) with
      | none => simpa [hf] using h
      | some o =>
        simp only [hf, onPlantsChangeSel, List.length_take]
        omega
  · intro i
    unfold removePlant
    split_ifs with hi
    · simp only [onPlantsChangeSel, List.length_take]
      omega
    · exact h
  · simp only [onPlantsChangeSel, List.length_take]
    omega
  · intro h3
    unfold addPlant
    have h4 : 3 ≤ s.selectedPlants.length := by omega
    simp [h4]

/-- Witness for `addPlant_cap_and_noop`: with 3 plants selected and a 4th
pending in the dropdown, `addPlant` leaves the selection unchanged. -/
theorem addPlant_cap_and_noop_witness :
    (addPlant
      { tempSelectedPlant := "P4",
        selectedPlants := [⟨"P1", "P1"⟩, ⟨"P2", "P2"⟩, ⟨"P3", "P3"⟩],
        plantOptions := [⟨"P1", "P1"⟩, ⟨"P2", "P2"⟩, ⟨"P3", "P3"⟩, ⟨"P4", "P4"⟩] }).selectedPlants =
      [⟨"P1", "P1"⟩, ⟨"P2", "P2"⟩, ⟨"P3", "P3"⟩] :=
  (addPlant_cap_and_noop _ (by decide)).2.2.2 (by decide)

/-! ## C6: per-plant fetch failure isolation -/

/-- C6 — If one plant's timeline fetch fails, that plant's series becomes
empty while every other plant's fetched series is still produced; every
selected plant gets a slot, so the aggregation never aborts on a single
failure. -/
theorem loadTimeline_partial_failure (fetch : String → Except String (List TimelinePoint))
    (plants : List String) (p : String) (hp : p ∈ plants) :
    (loadTimelineResults fetch plants).length = plants.length ∧
    (∀ e, fetch p = .error e →
      (p, ([] : List TimelinePoint)) ∈ loadTimelineResults fetch plants) ∧
    (∀ q ts, q ∈ plants → fetch q = .ok ts → (q, ts) ∈ loadTimelineResults fetch plants) := by
  refine ⟨by simp [loadTimelineResults], ?_, ?_⟩
  · intro e he
    unfold loadTimelineResults
    refine List.mem_map.mpr ⟨p, hp, ?_⟩
    rw [he]
  · intro q ts hq hok
    unfold loadTimelineResults
    refine List.mem_map.mpr ⟨q, hq, ?_⟩
    rw [hok]

/-- Witness for `loadTimeline_partial_failure`: P2's fetch rejects, P1's
succeeds; P2 gets an empty series and P1 keeps its data. -/
theorem loadTimeline_partial_failure_witness :
    (("P2", ([] : List TimelinePoint)) ∈
      loadTimelineResults
        (fun id => if id == "P2" then .error "network error"
                   else .ok [⟨"2024-01-01", 1, 1, 0, 1, 1, 1, 1⟩])
        ["P1", "P2"]) ∧
    (("P1", [(⟨"2024-01-01", 1, 1, 0, 1, 1, 1, 1⟩ : TimelinePoint)]) ∈
      loadTimelineResults
        (fun id => if id == "P2" then .error "network error"
                   else .ok [⟨"2024-01-01", 1, 1, 0, 1, 1, 1, 1⟩])
        ["P1", "P2"]) :=
  ⟨(loadTimeline_partial_failure _ _ "P2" (by decide)).2.1 "network error" rfl,
   (loadTimeline_partial_failure _ _ "P1" (by decide)).2.2 "P1" _ (by decide) rfl⟩

/-! ## Key structure of cleaned rows -/

lemma cleanRow_keys (keep : List String) (r : Obj) :
    (cleanRow keep r).map Prod.fst = keep := by
  unfold cleanRow
  rw [List.map_map]
  have h : (Prod.fst ∘ fun c => (c, cleanVal (jsGet r c))) = id := rfl
  rw [h, List.map_id]

lemma imputeRow_keys (fc : List String) (rs : List Obj) (row : Obj) :
    (imputeRow fc rs row).map Prod.fst = row.map Prod.fst := by
  unfold imputeRow
  rw [List.map_map]
  apply List.map_congr_left
  intro kv _
  simp only [Function.comp]
  split <;> rfl

lemma not_feature_of_excluded (df : List Obj) (c : String) (hc : c ∈ excludedCols) :
    c ∉ featureColumns df := by
  intro hmem
  have hf := (List.mem_filter.mp hmem).2
  rw [isFeatureCol_eq] at hf
  have hb : excludedCols.contains c = true := by simpa using hc
  simp [hb] at hf
  exact hf.1.1 hc

lemma loadAndCleanFeatures_data_length (df : List Obj) :
    (loadAndCleanFeatures df).data.length = df.length := by
  unfold loadAndCleanFeatures
  by_cases h : df.isEmpty
  · rw [if_pos h]
    rw [List.isEmpty_iff] at h
    simp [h]
  · rw [if_neg h]
    simp [cleanedData0]

/-! ## C10: cleaned rows carry exactly the kept keys -/

/-- C10 — Every cleaned row holds exactly the keys
`plant, date_key, plant_num, mutation` followed by the detected feature
columns; in particular `date_numeric`, `cluster` and `cluster_num` are
absent from every cleaned row even when present in the input. -/
theorem cleanedRows_key_set (df : List Obj) (hdf : df ≠ []) :
    ∀ row ∈ (loadAndCleanFeatures df).data,
      row.map Prod.fst =
        ["plant", "date_key", "plant_num", "mutation"] ++
          (loadAndCleanFeatures df).featureColumns ∧
      "date_numeric" ∉ row.map Prod.fst ∧
      "cluster" ∉ row.map Prod.fst ∧
      "cluster_num" ∉ row.map Prod.fst := by
  intro row hrow
  have hne : ¬ df.isEmpty = true := by
    rw [List.isEmpty_iff]
    exact hdf
  unfold loadAndCleanFeatures at hrow ⊢
  rw [if_neg hne] at hrow ⊢
  simp only at hrow ⊢
  obtain ⟨r0, hr0, rfl⟩ := List.mem_map.mp hrow
  obtain ⟨r1, _hr1, rfl⟩ := List.mem_map.mp hr0
  have hkeys : (imputeRow (featureColumns df) (cleanedData0 df)
      (cleanRow (keepColumns df) r1)).map Prod.fst = keepColumns df := by
    rw [imputeRow_keys, cleanRow_keys]
  rw [hkeys]
  refine ⟨rfl, ?_, ?_, ?_⟩ <;>
    · unfold keepColumns
      rw [List.mem_append]
      rintro (hmem | hmem)
      · simp at hmem
      · exact not_feature_of_excluded df _ (by decide) hmem

/-- Witness for `cleanedRows_key_set`: an input row with `date_numeric` and
`cluster` keys produces a cleaned row holding only the four identifier keys
and the one feature key. -/
theorem cleanedRows_key_set_witness :
    ([("plant", JVal.vstr "A"), ("date_key", JVal.vnull), ("plant_num", JVal.vnull),
      ("mutation", JVal.vnull), ("x", JVal.vnum 2)] : Obj).map Prod.fst =
      ["plant", "date_key", "plant_num", "mutation"] ++
        (loadAndCleanFeatures
          [[("plant", JVal.vstr "A"), ("date_numeric", JVal.vnum 5),
            ("cluster", JVal.vnum 1), ("x", JVal.vnum 2)]]).featureColumns ∧
    "date_numeric" ∉
      ([("plant", JVal.vstr "A"), ("date_key", JVal.vnull), ("plant_num", JVal.vnull),
        ("mutation", JVal.vnull), ("x", JVal.vnum 2)] : Obj).map Prod.fst ∧
    "cluster" ∉
      ([("plant", JVal.vstr "A"), ("date_key", JVal.vnull), ("plant_num", JVal.vnull),
        ("mutation", JVal.vnull), ("x", JVal.vnum 2)] : Obj).map Prod.fst ∧
    "cluster_num" ∉
      ([("plant", JVal.vstr "A"), ("date_key", JVal.vnull), ("plant_num", JVal.vnull),
        ("mutation", JVal.vnull), ("x", JVal.vnum 2)] : Obj).map Prod.fst := by
  apply cleanedRows_key_set
    [[("plant", JVal.vstr "A"), ("date_numeric", JVal.vnum 5),
      ("cluster", JVal.vnum 1), ("x", JVal.vnum 2)]] (by decide)
  have hfc : featureColumns
      [[("plant", JVal.vstr "A"), ("date_numeric", JVal.vnum 5),
        ("cluster", JVal.vnum 1), ("x", JVal.vnum 2)]] = ["x"] := by
    simp only [featureColumns, isFeatureCol_eq]
    decide
  simp only [loadAndCleanFeatures, keepColumns, cleanedData0, hfc]
  decide

/-! ## C9: insufficient features for correlation -/

/-- In the non-degenerate case, the correlation matrix has one row per
selected column and echoes the column list. -/
lemma computeCorrelationMatrix_shape (data : List Obj) (cols : List String)
    (hd : data ≠ []) (hc : cols ≠ []) :
    (computeCorrelationMatrix data cols).matrix.length = cols.length ∧
    (computeCorrelationMatrix data cols).columns = cols := by
  have hd' : data.isEmpty = false := by
    cases data with
    | nil => exact absurd rfl hd
    | cons a l => rfl
  have hc' : cols.isEmpty = false := by
    cases cols with
    | nil => exact absurd rfl hc
    | cons a l => rfl
  unfold computeCorrelationMatrix
  rw [hd', hc']
  simp

/-- The plotted branch of the heatmap renderer, as an equation. -/
lemma renderCorrelationHeatmap_eq_plot (df : List Obj) (t : CorrChartType)
    (h : ¬ (corrColsFor df t).length < 2) :
    renderCorrelationHeatmap df t =
      .plot
        ((computeCorrelationMatrix (loadAndCleanFeatures df).data
            (corrColsFor df t)).matrix.enum.map
          (fun ir => ir.2.enum.map (fun jv => if jv.1 ≤ ir.1 then none else some jv.2)))
        ((computeCorrelationMatrix (loadAndCleanFeatures df).data
            (corrColsFor df t)).columns) := by
  unfold renderCorrelationHeatmap
  rw [if_neg h]

/-- C9 — Requesting a correlation over fewer than 2 numeric columns yields
the user-visible "not enough features" error and no plot; conversely,
whenever a matrix is plotted it has at least 2 rows and 2 axis labels, so
no 1×1 or empty matrix is ever presented. -/
theorem heatmap_not_enough_features (df : List Obj) (t : CorrChartType) :
    ((corrColsFor df t).length < 2 →
      renderCorrelationHeatmap df t = .err "Not enough features for correlation matrix") ∧
    (∀ z axis, renderCorrelationHeatmap df t = .plot z axis →
      2 ≤ z.length ∧ 2 ≤ axis.length) := by
  constructor
  · intro h
    unfold renderCorrelationHeatmap
    rw [if_pos h]
  · intro z axis hp
    by_cases h : (corrColsFor df t).length < 2
    · unfold renderCorrelationHeatmap at hp
      rw [if_pos h] at hp
      cases hp
    · have hcols : 2 ≤ (corrColsFor df t).length := by omega
      rw [renderCorrelationHeatmap_eq_plot df t h] at hp
      cases hp
      have hdfne : df ≠ [] := by
        intro hemp
        subst hemp
        revert hcols
        cases t <;> decide
      have hdata : (loadAndCleanFeatures df).data ≠ [] := by
        intro hh
        have hlen := loadAndCleanFeatures_data_length df
        rw [hh] at hlen
        exact hdfne (List.length_eq_zero.mp hlen.symm)
      have hcne : corrColsFor df t ≠ [] := by
        intro hh
        rw [hh] at hcols
        simp at hcols
      obtain ⟨hmlen, hmcols⟩ :=
        computeCorrelationMatrix_shape (loadAndCleanFeatures df).data (corrColsFor df t)
          hdata hcne
      constructor
      · rw [List.length_map, List.enum_length, hmlen]
        exact hcols
      · rw [hmcols]
        exact hcols

/-- Witness for `heatmap_not_enough_features`: on an empty corpus there are
no feature columns, and the heatmap renderer reports the error. -/
theorem heatmap_not_enough_features_witness :
    renderCorrelationHeatmap [] CorrChartType.all =
      .err "Not enough features for correlation matrix" :=
  (heatmap_not_enough_features [] CorrChartType.all).1 (by decide)

/-! ## C4: the categorizer rule -/

inductive FeatGroup where
  | veg | tex | morph
deriving DecidableEq, Repr

/-- The categorization rule as the claim words it, with a global prefix
pass: an explicit name prefix (`veg_`, `texture_`, `morph_`) short-circuits
the column into that group before any keyword matching; otherwise the
keyword vocabularies decide in the precedence Vegetation → Texture →
Morphology.  Stated from the claim for comparison with
`splitFeatureGroups`. -/
def claimCategorize (col : String) : Option FeatGroup :=
  if jsStartsWithStr col "veg_" then some .veg
  else if jsStartsWithStr col "texture_" then some .tex
  else if jsStartsWithStr col "morph_" then some .morph
  else if vegKeys.any (fun k => inclLower col k) then some .veg
  else if texKeys.any (fun k => inclLower col k) then some .tex
  else if morphKeys.any (fun k => inclLower col k) then some .morph
  else none

/-- Counterexample to C4 as stated: `morph_ndvi` carries the explicit
`morph_` prefix, so the claimed rule short-circuits it into Morphology, but
the code tests the Vegetation branch first and its keyword `ndvi` matches,
so the column lands in Vegetation and Morphology stays empty. -/
theorem splitFeatureGroups_prefix_counterexample :
    jsStartsWithStr "morph_ndvi" "morph_" = true ∧
    claimCategorize "morph_ndvi" = some FeatGroup.morph ∧
    (splitFeatureGroups ["morph_ndvi"]).Morphology = [] ∧
    (splitFeatureGroups ["morph_ndvi"]).Vegetation = ["morph_ndvi"] := by
  decide

/-- C4 (amended) — The categorizer evaluates the groups in fixed precedence
Vegetation → Texture → Morphology, a column joining the first group whose
branch condition (its explicit prefix, short-circuiting that group's
keyword scan, or a case-insensitive keyword substring match) holds; a later
group's explicit prefix does not override an earlier group's keyword match;
a column matching no group is omitted from all three lists; no column
appears in two groups. -/
theorem splitFeatureGroups_rule (cols : List String) (col : String) :
    (col ∈ (splitFeatureGroups cols).Vegetation ↔ col ∈ cols ∧ vegCond col = true) ∧
    (col ∈ (splitFeatureGroups cols).Texture ↔
      col ∈ cols ∧ vegCond col = false ∧ texCond col = true) ∧
    (col ∈ (splitFeatureGroups cols).Morphology ↔
      col ∈ cols ∧ vegCond col = false ∧ texCond col = false ∧ morphCond col = true) ∧
    (jsStartsWithStr col "veg_" = true → vegCond col = true) ∧
    (jsStartsWithStr col "texture_" = true → texCond col = true) ∧
    (jsStartsWithStr col "morph_" = true → morphCond col = true) ∧
    (vegCond col = false → texCond col = false → morphCond col = false →
      col ∉ (splitFeatureGroups cols).Vegetation ∧
      col ∉ (splitFeatureGroups cols).Texture ∧
      col ∉ (splitFeatureGroups cols).Morphology) ∧
    ¬ (col ∈ (splitFeatureGroups cols).Vegetation ∧ col ∈ (splitFeatureGroups cols).Texture) ∧
    ¬ (col ∈ (splitFeatureGroups cols).Vegetation ∧ col ∈ (splitFeatureGroups cols).Morphology) ∧
    ¬ (col ∈ (splitFeatureGroups cols).Texture ∧ col ∈ (splitFeatureGroups cols).Morphology) := by
  have hveg : col ∈ (splitFeatureGroups cols).Vegetation ↔ col ∈ cols ∧ vegCond col = true := by
    simp [splitFeatureGroups, List.mem_filter]
  have htex : col ∈ (splitFeatureGroups cols).Texture ↔
      col ∈ cols ∧ vegCond col = false ∧ texCond col = true := by
    simp only [splitFeatureGroups, List.mem_filter, Bool.and_eq_true, Bool.not_eq_true',
      and_assoc]
  have hmor : col ∈ (splitFeatureGroups cols).Morphology ↔
      col ∈ cols ∧ vegCond col = false ∧ texCond col = false ∧ morphCond col = true := by
    simp only [splitFeatureGroups, List.mem_filter, Bool.and_eq_true, Bool.not_eq_true',
      and_assoc]
  refine ⟨hveg, htex, hmor, ?_, ?_, ?_, ?_, ?_, ?_, ?_⟩
  · intro hp
    unfold vegCond
    rw [hp]
    rfl
  · intro hp
    unfold texCond
    rw [hp]
    rfl
  · intro hp
    unfold morphCond
    rw [hp]
    rfl
  · intro h1 h2 h3
    refine ⟨?_, ?_, ?_⟩
    · rw [hveg]
      rintro ⟨-, hc⟩
      rw [h1] at hc
      cases hc
    · rw [htex]
      rintro ⟨-, -, hc⟩
      rw [h2] at hc
      cases hc
    · rw [hmor]
      rintro ⟨-, -, -, hc⟩
      rw [h3] at hc
      cases hc
  · rw [hveg, htex]
    rintro ⟨⟨-, h1⟩, -, h2, -⟩
    rw [h1] at h2
    cases h2
  · rw [hveg, hmor]
    rintro ⟨⟨-, h1⟩, -, h2, -, -⟩
    rw [h1] at h2
    cases h2
  · rw [htex, hmor]
    rintro ⟨⟨-, -, h1⟩, -, -, h2, -⟩
    rw [h1] at h2
    cases h2

/-- Witness for `splitFeatureGroups_rule`: `texture_x` carries the
`texture_` prefix, fails the Vegetation condition, and lands in Texture. -/
theorem splitFeatureGroups_rule_witness :
    "texture_x" ∈ (splitFeatureGroups ["texture_x"]).Texture :=
  ((splitFeatureGroups_rule ["texture_x"] "texture_x").2.1).mpr
    ⟨by decide, by decide, by decide⟩

/-! ## Cell-level access lemmas for cleaned rows -/

lemma loadAndCleanFeatures_featureColumns (df : List Obj) (h : df ≠ []) :
    (loadAndCleanFeatures df).featureColumns = featureColumns df := by
  unfold loadAndCleanFeatures
  rw [if_neg (by simpa [List.isEmpty_iff] using h)]

lemma loadAndCleanFeatures_data (df : List Obj) (h : df ≠ []) :
    (loadAndCleanFeatures df).data =
      (cleanedData0 df).map (imputeRow (featureColumns df) (cleanedData0 df)) := by
  unfold loadAndCleanFeatures
  rw [if_neg (by simpa [List.isEmpty_iff] using h)]

lemma jsGet_cleanRow (keep : List String) (r : Obj) (col : String) :
    jsGet (cleanRow keep r) col =
      if col ∈ keep then some (cleanVal (jsGet r col)) else none := by
  induction keep with
  | nil => rfl
  | cons k ks ih =>
    by_cases hk : col = k
    · subst hk
      simp [cleanRow, jsGet, List.lookup_cons]
    · have hbeq : (col == k) = false := by simpa using hk
      simp only [cleanRow, List.map_cons, jsGet, List.lookup_cons, hbeq] at ih ⊢
      rw [ih]
      by_cases hmem : col ∈ ks
      · simp [hmem, hk]
      · simp [hmem, hk]

lemma jsGet_imputeRow (fc : List String) (rs : List Obj) (row : Obj) (col : String) :
    (imputeRow fc rs row).lookup col =
      (row.lookup col).map (fun v =>
        if fc.contains col && (decide (v = JVal.vnull) || !(jsIsFiniteNum v)) then
          JVal.vnum (fillValue rs col)
        else v) := by
  induction row with
  | nil => rfl
  | cons kv t ih =>
    obtain ⟨k, v⟩ := kv
    unfold imputeRow at ih ⊢
    by_cases hk : col = k
    · subst hk
      by_cases hcond : col ∈ fc ∧ (v = JVal.vnull ∨ jsIsFiniteNum v = false)
      · simp [List.lookup_cons, hcond]
      · simp [List.lookup_cons, hcond]
    · have hbeq : (col == k) = false := by simpa using hk
      simp at ih
      by_cases hcond : k ∈ fc ∧ (v = JVal.vnull ∨ jsIsFiniteNum v = false)
      · simp [List.lookup_cons, hcond, hbeq, ih]
      · simp [List.lookup_cons, hcond, hbeq, ih]

/-- The cell an imputed cleaned row holds in a feature column: a numeric
cleaned cell is kept, everything else (null and non-finite cells) is
overwritten with the fill value. -/
lemma jsGet_imputed_cell (df : List Obj) (r : Obj) (col : String)
    (hkeep : col ∈ keepColumns df) (hfc : col ∈ featureColumns df) :
    jsGet (imputeRow (featureColumns df) (cleanedData0 df) (cleanRow (keepColumns df) r)) col =
      some (match cleanVal (jsGet r col) with
            | JVal.vnum q => JVal.vnum q
            | _ => JVal.vnum (fillValue (cleanedData0 df) col)) := by
  have hg := jsGet_cleanRow (keepColumns df) r col
  rw [if_pos hkeep] at hg
  unfold jsGet at hg ⊢
  rw [jsGet_imputeRow, hg]
  cases hv : cleanVal (List.lookup col r) with
  | vnull => simp [hv, hfc]
  | vnum q => simp [hv, hfc, jsIsFiniteNum, toNumber]
  | vstr s =>
    have hnp := cleanVal_no_parsing_str (List.lookup col r) s hv
    simp [hv, hfc, jsIsFiniteNum, toNumber, hnp]

/-! ## C2: the numeric-feature classifier -/

/-- The sampling rule as the claim words it: both null AND empty-string
values are skipped before computing the numeric fraction.  Stated from the
claim for comparison with `sampleVals`/`isFeatureCol` (which skip only
null/undefined). -/
def claimSampleVals (df : List Obj) (col : String) : List JVal :=
  ((df.take 100).map (fun r => jsGet r col)).filterMap
    (fun v =>
      match v with
      | none => none
      | some .vnull => none
      | some (.vstr "") => none
      | some w => some w)

/-- The classifier as the claim words it, over the empty-skipping sample. -/
def claimIsFeature (df : List Obj) (col : String) : Bool :=
  if excludedCols.contains col then false
  else
    let sample := claimSampleVals df col
    if sample.length = 0 then false
    else
      decide ((((sample.filter (fun v => (toNumber v).isSome)).length : ℚ) /
        (sample.length : ℚ)) > 1 / 2)

/-- Counterexample to C2 as stated: on a record whose only column holds the
empty string, the claim's rule (empty values skipped) finds no sample and
rejects the column, but the code keeps `''` in the sample, `Number('')`
is the finite number `0`, and the column is classified as a feature. -/
theorem feature_classifier_counterexample :
    (loadAndCleanFeatures [[("x", JVal.vstr "")]]).featureColumns = ["x"] ∧
    claimIsFeature [[("x", JVal.vstr "")]] "x" = false := by
  constructor
  · rw [loadAndCleanFeatures_featureColumns _ (by decide)]
    simp only [featureColumns, isFeatureCol_eq]
    decide
  · decide

/-- C2 (amended) — For every non-empty record list, a column of the first
record is classified as a numeric feature iff it is outside the fixed
identifier set, its sample (up to the first 100 rows, only null/undefined
skipped — empty strings are kept and parse as the finite number 0) is
non-empty, and strictly more than half of its samples parse as finite
numbers. -/
theorem feature_classifier_rule (df : List Obj) (hdf : df ≠ []) (col : String) :
    (col ∈ (loadAndCleanFeatures df).featureColumns ↔
      col ∈ (df.headD []).map Prod.fst ∧
      col ∉ excludedCols ∧
      sampleVals df col ≠ [] ∧
      (sampleVals df col).length <
        2 * ((sampleVals df col).filter (fun v => (toNumber v).isSome)).length) ∧
    toNumber (JVal.vstr "") = some 0 := by
  refine ⟨?_, rfl⟩
  rw [loadAndCleanFeatures_featureColumns df hdf]
  unfold featureColumns allColumns
  rw [List.mem_filter, isFeatureCol_eq]
  simp [and_assoc, List.length_eq_zero]

/-- Witness for `feature_classifier_rule`: a column whose only value is the
empty string is classified as a numeric feature. -/
theorem feature_classifier_rule_witness :
    "x" ∈ (loadAndCleanFeatures [[("x", JVal.vstr "")]]).featureColumns :=
  ((feature_classifier_rule [[("x", JVal.vstr "")]] (by decide) "x").1).mpr
    ⟨by decide, by decide, by decide, by decide⟩

/-! ## C3: median imputation -/

/-- C3 — The fill value of a feature column is the element at index `⌊n/2⌋`
of the ascending sort of the column's `n` non-null finite cleaned values
(`0` when `n = 0`); every cell whose cleaned value is missing or not finite
is overwritten with the fill value while numeric cells are kept; hence the
cleaned output contains no null/NaN cell in that column. -/
theorem median_imputation (df : List Obj) (hdf : df ≠ []) (col : String)
    (hcol : col ∈ (loadAndCleanFeatures df).featureColumns) :
    medianPool (cleanedData0 df) col =
      (cleanedData0 df).filterMap (fun r =>
        match jsGet r col with
        | some v => if notNullish (some v) && jsIsFiniteNum v then toNumber v else none
        | none => none) ∧
    (sortedPool (cleanedData0 df) col).Sorted (· ≤ ·) ∧
    List.Perm (sortedPool (cleanedData0 df) col) (medianPool (cleanedData0 df) col) ∧
    fillValue (cleanedData0 df) col =
      (sortedPool (cleanedData0 df) col).getD
        ((medianPool (cleanedData0 df) col).length / 2) 0 ∧
    (medianPool (cleanedData0 df) col = [] → fillValue (cleanedData0 df) col = 0) ∧
    (∀ i r, df.get? i = some r →
      ∃ row, (loadAndCleanFeatures df).data.get? i = some row ∧
        jsGet row col =
          some (match cleanVal (jsGet r col) with
                | JVal.vnum q => JVal.vnum q
                | _ => JVal.vnum (fillValue (cleanedData0 df) col))) ∧
    (∀ i r, df.get? i = some r →
      ∃ row, (loadAndCleanFeatures df).data.get? i = some row ∧
        ∃ q : ℚ, jsGet row col = some (JVal.vnum q)) := by
  have hfc : col ∈ featureColumns df := by
    rwa [loadAndCleanFeatures_featureColumns df hdf] at hcol
  have hkeep : col ∈ keepColumns df := by
    unfold keepColumns
    exact List.mem_append.mpr (Or.inr hfc)
  have hcells : ∀ i r, df.get? i = some r →
      ∃ row, (loadAndCleanFeatures df).data.get? i = some row ∧
        jsGet row col =
          some (match cleanVal (jsGet r col) with
                | JVal.vnum q => JVal.vnum q
                | _ => JVal.vnum (fillValue (cleanedData0 df) col)) := by
    intro i r hir
    refine ⟨imputeRow (featureColumns df) (cleanedData0 df) (cleanRow (keepColumns df) r),
      ?_, ?_⟩
    · rw [loadAndCleanFeatures_data df hdf]
      unfold cleanedData0
      rw [List.get?_map, List.get?_map, hir]
      rfl
    · exact jsGet_imputed_cell df r col hkeep hfc
  refine ⟨?_, ?_, ?_, rfl, ?_, hcells, ?_⟩
  · unfold medianPool
    apply List.filterMap_congr
    intro r hr
    obtain ⟨r0, _hr0, rfl⟩ := List.mem_map.mp hr
    have hget := jsGet_cleanRow (keepColumns df) r0 col
    by_cases hmem : col ∈ keepColumns df
    · rw [if_pos hmem] at hget
      rw [hget]
      cases hv : cleanVal (jsGet r0 col) with
      | vnull => rfl
      | vnum q => simp [notNullish, jsIsFiniteNum, toNumber]
      | vstr s =>
        have hnp := cleanVal_no_parsing_str (jsGet r0 col) s hv
        simp [notNullish, jsIsFiniteNum, toNumber, hnp]
    · rw [if_neg hmem] at hget
      rw [hget]
  · exact List.sorted_insertionSort (· ≤ ·) _
  · exact List.perm_insertionSort (· ≤ ·) _
  · intro hpool
    unfold fillValue sortedPool
    rw [hpool]
    rfl
  · intro i r hir
    obtain ⟨row, hrow, hcell⟩ := hcells i r hir
    refine ⟨row, hrow, ?_⟩
    cases hv : cleanVal (jsGet r col) with
    | vnull =>
      rw [hv] at hcell
      exact ⟨_, hcell⟩
    | vnum q =>
      rw [hv] at hcell
      exact ⟨q, hcell⟩
    | vstr s =>
      rw [hv] at hcell
      exact ⟨_, hcell⟩

/-- Witness for `median_imputation`: the spec's example shape — two rows,
the second with a null `ndvi` cell — yields a cleaned second row whose
`ndvi` cell holds a number (the first row's value, the median). -/
theorem median_imputation_witness :
    ∃ row, (loadAndCleanFeatures
        [[("plant", JVal.vstr "A"), ("ndvi", JVal.vnum 5)],
         [("plant", JVal.vstr "A"), ("ndvi", JVal.vnull)]]).data.get? 1 = some row ∧
      ∃ q : ℚ, jsGet row "ndvi" = some (JVal.vnum q) := by
  have hcol : "ndvi" ∈ (loadAndCleanFeatures
      [[("plant", JVal.vstr "A"), ("ndvi", JVal.vnum 5)],
       [("plant", JVal.vstr "A"), ("ndvi", JVal.vnull)]]).featureColumns := by
    rw [loadAndCleanFeatures_featureColumns _ (by decide)]
    simp only [featureColumns, isFeatureCol_eq]
    decide
  exact (median_imputation _ (by decide) "ndvi" hcol).2.2.2.2.2.2 1 _ rfl

/-! ## C8: the caller's records are never mutated -/

lemma readObj_append (h l : Heap) (i : ℕ) (hi : i < h.length) :
    readObj (h ++ l) i = readObj h i := by
  unfold readObj
  rw [List.getD_eq_get?, List.getD_eq_get?, List.get?_append hi]

lemma readObj_set_ne (hh : Heap) (a : ℕ) (o : Obj) (i : ℕ) (hne : a ≠ i) :
    readObj (writeObj hh a o) i = readObj hh i := by
  unfold readObj writeObj
  rw [List.getD_eq_getElem?_getD, List.getD_eq_getElem?_getD, List.getElem?_set_ne hne]

/-- A left fold of address-directed writes at addresses at least `b` leaves
every object below `b` untouched. -/
lemma foldl_writeObj_preserves (as : List ℕ) (g : Heap → ℕ → Obj) (h0 : Heap) (b : ℕ)
    (has : ∀ a ∈ as, b ≤ a) (i : ℕ) (hi : i < b) :
    readObj (as.foldl (fun hh a => writeObj hh a (g hh a)) h0) i = readObj h0 i := by
  induction as generalizing h0 with
  | nil => rfl
  | cons a t ih =>
    rw [List.foldl_cons]
    rw [ih _ (fun x hx => has x (List.mem_cons_of_mem _ hx))]
    have hba : b ≤ a := has a (List.mem_cons_self a t)
    exact readObj_set_ne h0 a _ i (by omega)

/-- A left fold over column names whose every step preserves the low heap
preserves the low heap. -/
lemma foldl_step_preserves (cols : List String) (step : Heap → String → Heap) (h0 : Heap)
    (b : ℕ) (hstep : ∀ hh c i, i < b → readObj (step hh c) i = readObj hh i)
    (i : ℕ) (hi : i < b) :
    readObj (cols.foldl step h0) i = readObj h0 i := by
  induction cols generalizing h0 with
  | nil => rfl
  | cons c t ih =>
    rw [List.foldl_cons, ih _, hstep h0 c i hi]

lemma resAddrs_ge (n b : ℕ) : ∀ a ∈ (List.range n).map (fun i => b + i), b ≤ a := by
  intro a ha
  obtain ⟨j, _, rfl⟩ := List.mem_map.mp ha
  omega

/-- C8 — Neither the heap-level cleaner nor the heap-level z-score
normalizer ever writes to a pre-existing address: after either returns,
every object of the caller's heap — in particular every record of the
argument row list — is unchanged (both functions write only into the
freshly allocated copies), for any square-root function the normalizer's
arithmetic uses. -/
theorem cleaner_normalizer_no_mutation (h : Heap) (addrs : List ℕ) (cols : List String)
    (sqrtFn : ℚ → ℚ) (i : ℕ) (hi : i < h.length) :
    readObj (loadAndCleanFeaturesHeap h addrs).1 i = readObj h i ∧
    readObj (zscoreNormalizeHeap sqrtFn h addrs cols).1 i = readObj h i := by
  constructor
  · unfold loadAndCleanFeaturesHeap
    by_cases hemp : (addrs.map (readObj h)).isEmpty = true
    · simp only [hemp, if_true]
    · have hemp' : (addrs.map (readObj h)).isEmpty = false := by
        simpa using hemp
      simp only [hemp', Bool.false_eq_true, if_false]
      rw [foldl_writeObj_preserves _ _ _ h.length
        (resAddrs_ge (addrs.map (readObj h)).length h.length) i hi]
      exact readObj_append h _ i hi
  · unfold zscoreNormalizeHeap
    rw [foldl_step_preserves _ _ _ h.length ?hstep i hi]
    · exact readObj_append h _ i hi
    case hstep =>
      intro hh c j hj
      by_cases hv : (((List.range addrs.length).map (fun i => h.length + i)).filterMap
          (fun a =>
            match jsGet (readObj hh a) c with
            | some (.vnum q) => some q
            | _ => none)).isEmpty
      · simp only [hv, if_true]
      · simp only [hv, Bool.false_eq_true, if_false]
        split
        · exact foldl_writeObj_preserves _ _ _ h.length
            (resAddrs_ge addrs.length h.length) j hj
        · rfl

/-- Witness for `cleaner_normalizer_no_mutation`: a one-record heap is
untouched at address 0 by both functions. -/
theorem cleaner_normalizer_no_mutation_witness :
    readObj (loadAndCleanFeaturesHeap [[("plant", JVal.vstr "A"), ("x", JVal.vnum 1)]] [0]).1 0 =
      readObj [[("plant", JVal.vstr "A"), ("x", JVal.vnum 1)]] 0 ∧
    readObj (zscoreNormalizeHeap (fun q => q) [[("plant", JVal.vstr "A"), ("x", JVal.vnum 1)]]
        [0] ["x"]).1 0 =
      readObj [[("plant", JVal.vstr "A"), ("x", JVal.vnum 1)]] 0 :=
  cleaner_normalizer_no_mutation [[("plant", JVal.vstr "A"), ("x", JVal.vnum 1)]] [0] ["x"]
    (fun q => q) 0 (by decide)

/-! ## C1: shape, symmetry, diagonal and zero-variance of the matrix -/

lemma getD_map_lt {α β : Type} (f : α → β) (l : List α) (i : ℕ) (hi : i < l.length)
    (d : α) (d' : β) : (l.map f).getD i d' = f (l.getD i d) := by
  rw [List.getD_eq_getElem?_getD, List.getD_eq_getElem?_getD, List.getElem?_map,
    List.getElem?_eq_getElem hi]
  rfl

lemma sumSqDevOver_eq_sumSqDev (x y : List ℝ) (hlen : y.length = x.length) :
    sumSqDevOver x.length y = sumSqDev y := by
  unfold sumSqDev
  rw [hlen]

lemma corrEntry_comm (x y : List ℝ) (hlen : y.length = x.length) :
    corrEntry x y = corrEntry y x := by
  unfold corrEntry
  rw [hlen]
  have h1 : corrNumerator x y = corrNumerator y x := by
    unfold corrNumerator
    rw [hlen]
    apply congrArg
    apply List.map_congr_left
    intro i _
    ring
  rw [h1, mul_comm (sumSqDevOver x.length x) (sumSqDevOver x.length y)]

/-- The matrix entry at `(i, j)`. -/
lemma corrMatrix_entry (data : List Obj) (cols : List String) (hd : data ≠ [])
    (hc : cols ≠ []) (i j : ℕ) (hi : i < cols.length) (hj : j < cols.length) :
    ((computeCorrelationMatrix data cols).matrix.getD i []).getD j 0 =
      (if cols.getD i "" = cols.getD j "" then (1 : ℝ)
       else corrEntry (colValues data (cols.getD i "")) (colValues data (cols.getD j ""))) := by
  have hd' : data.isEmpty = false := by
    cases data with
    | nil => exact absurd rfl hd
    | cons a l => rfl
  have hc' : cols.isEmpty = false := by
    cases cols with
    | nil => exact absurd rfl hc
    | cons a l => rfl
  unfold computeCorrelationMatrix
  rw [hd', hc']
  simp only [Bool.or_self, Bool.false_eq_true, if_false]
  rw [getD_map_lt _ cols i hi ""]
  rw [getD_map_lt _ cols j hj ""]

/-- Counterexample to C1 as stated: for an empty row set and the non-empty
selected column list `["a"]`, the returned matrix is empty (0×0), not
square over the selected columns (which would require dimension 1). -/
theorem correlation_empty_counterexample :
    ¬ ((computeCorrelationMatrix [] ["a"]).matrix.length = (["a"] : List String).length) := by
  simp [computeCorrelationMatrix]

/-- C1 (amended) — For every non-empty input row set and every selected
column list, the correlation matrix is square over the selected columns,
symmetric, has exactly `1.0` on the diagonal, and any pair of distinct
column names whose denominator `sqrt(sumSq x * sumSq y)` is not strictly
positive yields entry `0`.  (For an empty row set the function returns an
empty matrix and an empty column list.) -/
theorem correlation_matrix_properties (data : List Obj) (cols : List String)
    (hd : data ≠ []) :
    (computeCorrelationMatrix data cols).columns = cols ∧
    (computeCorrelationMatrix data cols).matrix.length = cols.length ∧
    (∀ i, i < cols.length →
      ((computeCorrelationMatrix data cols).matrix.getD i []).length = cols.length) ∧
    (∀ i j, i < cols.length → j < cols.length →
      ((computeCorrelationMatrix data cols).matrix.getD i []).getD j 0 =
        ((computeCorrelationMatrix data cols).matrix.getD j []).getD i 0) ∧
    (∀ i, i < cols.length →
      ((computeCorrelationMatrix data cols).matrix.getD i []).getD i 0 = 1) ∧
    (∀ i j, i < cols.length → j < cols.length →
      cols.getD i "" ≠ cols.getD j "" →
      ¬ 0 < Real.sqrt (sumSqDev (colValues data (cols.getD i "")) *
            sumSqDev (colValues data (cols.getD j ""))) →
      ((computeCorrelationMatrix data cols).matrix.getD i []).getD j 0 = 0) := by
  by_cases hc : cols = []
  · subst hc
    refine ⟨?_, ?_, ?_, ?_, ?_, ?_⟩ <;> simp [computeCorrelationMatrix]
  · obtain ⟨hlen, hcols⟩ := computeCorrelationMatrix_shape data cols hd hc
    have hvallen : ∀ c, (colValues data c).length = data.length := by
      intro c
      unfold colValues
      exact List.length_map _ _
    refine ⟨hcols, hlen, ?_, ?_, ?_, ?_⟩
    · intro i hi
      have hd' : data.isEmpty = false := by
        cases data with
        | nil => exact absurd rfl hd
        | cons a l => rfl
      have hc' : cols.isEmpty = false := by
        cases cols with
        | nil => exact absurd rfl hc
        | cons a l => rfl
      unfold computeCorrelationMatrix
      rw [hd', hc']
      simp only [Bool.or_self, Bool.false_eq_true, if_false]
      rw [getD_map_lt _ cols i hi ""]
      exact List.length_map _ _
    · intro i j hi hj
      rw [corrMatrix_entry data cols hd hc i j hi hj,
        corrMatrix_entry data cols hd hc j i hj hi]
      by_cases heq : cols.getD i "" = cols.getD j ""
      · rw [if_pos heq, if_pos heq.symm]
      · rw [if_neg heq, if_neg (fun hsym => heq hsym.symm)]
        exact corrEntry_comm _ _ (by rw [hvallen, hvallen])
    · intro i hi
      rw [corrMatrix_entry data cols hd hc i i hi hi, if_pos rfl]
    · intro i j hi hj hne hden
      rw [corrMatrix_entry data cols hd hc i j hi hj, if_neg hne]
      unfold corrEntry
      rw [sumSqDevOver_eq_sumSqDev (colValues data (cols.getD i ""))
            (colValues data (cols.getD i "")) rfl,
          sumSqDevOver_eq_sumSqDev (colValues data (cols.getD i ""))
            (colValues data (cols.getD j "")) (by simp [hvallen])]
      exact if_neg hden

/-- Witness for `correlation_matrix_properties`: on two rows where column
`b` is constant, the diagonal entry is `1` and the `(a, b)` entry is `0`
(zero variance). -/
theorem correlation_matrix_properties_witness :
    (((computeCorrelationMatrix
        [[("a", JVal.vnum 1), ("b", JVal.vnum 2)],
         [("a", JVal.vnum 2), ("b", JVal.vnum 2)]] ["a", "b"]).matrix.getD 0 []).getD 0 0
      = 1) ∧
    (((computeCorrelationMatrix
        [[("a", JVal.vnum 1), ("b", JVal.vnum 2)],
         [("a", JVal.vnum 2), ("b", JVal.vnum 2)]] ["a", "b"]).matrix.getD 0 []).getD 1 0
      = 0) := by
  have h := correlation_matrix_properties
    [[("a", JVal.vnum 1), ("b", JVal.vnum 2)],
     [("a", JVal.vnum 2), ("b", JVal.vnum 2)]] ["a", "b"] (by decide)
  refine ⟨h.2.2.2.2.1 0 (by decide), ?_⟩
  apply h.2.2.2.2.2 0 1 (by decide) (by decide) (by decide)
  show ¬ 0 < Real.sqrt
    (sumSqDev (colValues
        [[("a", JVal.vnum 1), ("b", JVal.vnum 2)],
         [("a", JVal.vnum 2), ("b", JVal.vnum 2)]] "a") *
     sumSqDev (colValues
        [[("a", JVal.vnum 1), ("b", JVal.vnum 2)],
         [("a", JVal.vnum 2), ("b", JVal.vnum 2)]] "b"))
  have hvals : colValues
      [[("a", JVal.vnum 1), ("b", JVal.vnum 2)],
       [("a", JVal.vnum 2), ("b", JVal.vnum 2)]] "b" = [((2 : ℚ) : ℝ), ((2 : ℚ) : ℝ)] := rfl
  have hzero : sumSqDev (colValues
      [[("a", JVal.vnum 1), ("b", JVal.vnum 2)],
       [("a", JVal.vnum 2), ("b", JVal.vnum 2)]] "b") = 0 := by
    rw [hvals]
    simp [sumSqDev, sumSqDevOver, jsMean, List.range_succ]
  rw [hzero, mul_zero, Real.sqrt_zero]
  exact lt_irrefl 0

/-! ## C5: order lemmas for the string comparator -/

lemma lexLtCh_irrefl (l : List Char) : lexLtCh l l = false := by
  induction l with
  | nil => rfl
  | cons a t ih => simp [lexLtCh, ih]

lemma lexLtCh_trans (a b c : List Char) (hab : lexLtCh a b = true)
    (hbc : lexLtCh b c = true) : lexLtCh a c = true := by
  induction a generalizing b c with
  | nil =>
    cases b with
    | nil => exact absurd hab (by simp [lexLtCh])
    | cons y bs =>
      cases c with
      | nil => exact absurd hbc (by simp [lexLtCh])
      | cons z cs => simp [lexLtCh]
  | cons x as ih =>
    cases b with
    | nil => exact absurd hab (by simp [lexLtCh])
    | cons y bs =>
      cases c with
      | nil => exact absurd hbc (by simp [lexLtCh])
      | cons z cs =>
        simp only [lexLtCh] at hab hbc ⊢
        split_ifs at hab hbc ⊢ with h1 h2 h3 h4 h5 h6 <;>
          first
          | rfl
          | omega
          | (exact ih bs cs hab hbc)
          | (exact absurd hab (by simp))
          | (exact absurd hbc (by simp))
          | skip
        all_goals omega

lemma lexLtCh_trichotomy (a b : List Char) :
    lexLtCh a b = true ∨ a = b ∨ lexLtCh b a = true := by
  induction a generalizing b with
  | nil =>
    cases b with
    | nil => exact Or.inr (Or.inl rfl)
    | cons y bs => exact Or.inl (by simp [lexLtCh])
  | cons x as ih =>
    cases b with
    | nil => exact Or.inr (Or.inr (by simp [lexLtCh]))
    | cons y bs =>
      by_cases hxy : x.toNat < y.toNat
      · exact Or.inl (by simp [lexLtCh, hxy])
      · by_cases hyx : y.toNat < x.toNat
        · exact Or.inr (Or.inr (by simp [lexLtCh, hyx]))
        · have hch : x = y := by
            have hn : x.toNat = y.toNat := by omega
            have := congrArg Char.ofNat hn
            rwa [Char.ofNat_toNat, Char.ofNat_toNat] at this
          subst hch
          rcases ih bs with h | h | h
          · exact Or.inl (by simp [lexLtCh, h])
          · exact Or.inr (Or.inl (by rw [h]))
          · exact Or.inr (Or.inr (by simp [lexLtCh, h]))

instance : IsTotal String dateLe := by
  constructor
  intro a b
  unfold dateLe
  by_cases h : lexLtCh b.toList a.toList = true
  · right
    by_contra hba
    have hba' : lexLtCh a.toList b.toList = true := by
      cases hx : lexLtCh a.toList b.toList with
      | true => rfl
      | false => exact absurd hx hba
    have := lexLtCh_trans _ _ _ h hba'
    rw [lexLtCh_irrefl] at this
    cases this
  · left
    cases hx : lexLtCh b.toList a.toList with
    | true => exact absurd hx h
    | false => rfl

instance : IsTrans String dateLe := by
  constructor
  intro a b c hab hbc
  unfold dateLe at hab hbc ⊢
  by_contra hlt
  have hca : lexLtCh c.toList a.toList = true := by
    cases hx : lexLtCh c.toList a.toList with
    | true => rfl
    | false => exact absurd hx hlt
  rcases lexLtCh_trichotomy a.toList b.toList with h | h | h
  · have := lexLtCh_trans _ _ _ hca h
    rw [hbc] at this
    cases this
  · rw [h] at hca
    rw [hca] at hbc
    cases hbc
  · rw [hab] at h
    cases h

/-! ## C5: deduplication lemmas -/

lemma mem_foldl_dedup (l acc : List String) (x : String) :
    x ∈ l.foldl (fun acc d => if acc.contains d then acc else acc ++ [d]) acc ↔
      x ∈ acc ∨ x ∈ l := by
  induction l generalizing acc with
  | nil => simp
  | cons d t ih =>
    rw [List.foldl_cons, ih]
    by_cases hd : acc.contains d
    · have hdm : d ∈ acc := by simpa using hd
      simp only [hd, if_true]
      constructor
      · rintro (h | h)
        · exact Or.inl h
        · exact Or.inr (List.mem_cons_of_mem _ h)
      · rintro (h | h)
        · exact Or.inl h
        · rcases List.mem_cons.mp h with rfl | h
          · exact Or.inl hdm
          · exact Or.inr h
    · have hd' : acc.contains d = false := by
        cases hx : acc.contains d with
        | true => exact absurd hx hd
        | false => rfl
      simp only [hd', Bool.false_eq_true, if_false]
      simp [List.mem_append, List.mem_cons]
      tauto
  
lemma nodup_foldl_dedup (l acc : List String) (hacc : acc.Nodup) :
    (l.foldl (fun acc d => if acc.contains d then acc else acc ++ [d]) acc).Nodup := by
  induction l generalizing acc with
  | nil => exact hacc
  | cons d t ih =>
    rw [List.foldl_cons]
    by_cases hd : acc.contains d
    · simp only [hd, if_true]
      exact ih acc hacc
    · have hd' : acc.contains d = false := by
        cases hx : acc.contains d with
        | true => exact absurd hx hd
        | false => rfl
      simp only [hd', Bool.false_eq_true, if_false]
      apply ih
      have hdm : d ∉ acc := by simpa using hd
      simp [List.nodup_append, hacc, hdm]

lemma mem_dedupFirst (l : List String) (x : String) : x ∈ dedupFirst l ↔ x ∈ l := by
  unfold dedupFirst
  rw [mem_foldl_dedup]
  simp

lemma nodup_dedupFirst (l : List String) : (dedupFirst l).Nodup :=
  nodup_foldl_dedup l [] List.nodup_nil

/-! ## C5: lexicographic order on valid ISO dates is calendar order -/

lemma validISO_shape (s : String) (h : isValidISO s = true) :
    ∃ y1 y2 y3 y4 m1 m2 d1 d2 : Char,
      s.toList = [y1, y2, y3, y4, '-', m1, m2, '-', d1, d2] ∧
      (48 ≤ y1.toNat ∧ y1.toNat ≤ 57) ∧ (48 ≤ y2.toNat ∧ y2.toNat ≤ 57) ∧
      (48 ≤ y3.toNat ∧ y3.toNat ≤ 57) ∧ (48 ≤ y4.toNat ∧ y4.toNat ≤ 57) ∧
      (48 ≤ m1.toNat ∧ m1.toNat ≤ 57) ∧ (48 ≤ m2.toNat ∧ m2.toNat ≤ 57) ∧
      (48 ≤ d1.toNat ∧ d1.toNat ≤ 57) ∧ (48 ≤ d2.toNat ∧ d2.toNat ≤ 57) := by
  unfold isValidISO at h
  rcases hl : s.toList with _ | ⟨c1, _ | ⟨c2, _ | ⟨c3, _ | ⟨c4, _ | ⟨c5, _ | ⟨c6, _ |
    ⟨c7, _ | ⟨c8, _ | ⟨c9, _ | ⟨c10, _ | ⟨c11, t⟩⟩⟩⟩⟩⟩⟩⟩⟩⟩⟩ <;>
    rw [hl] at h <;>
    simp only [isDigitCh, Bool.and_eq_true, decide_eq_true_eq, beq_iff_eq, and_assoc] at h
  all_goals try (exact absurd h (by decide))
  obtain ⟨q1, q2, q3, q4, q5, q6, q7, q8, he1, q9, q10, q11, q12, he2, q13, q14, q15, q16⟩ := h
  subst he1 he2
  exact ⟨c1, c2, c3, c4, c6, c7, c9, c10, rfl, ⟨q1, q2⟩, ⟨q3, q4⟩, ⟨q5, q6⟩, ⟨q7, q8⟩,
    ⟨q9, q10⟩, ⟨q11, q12⟩, ⟨q13, q14⟩, ⟨q15, q16⟩⟩

lemma lexLtCh_cons (a b : Char) (as bs : List Char) :
    lexLtCh (a :: as) (b :: bs) =
      if a.toNat < b.toNat then true else if b.toNat < a.toNat then false else lexLtCh as bs :=
  rfl

lemma lexLtCh_cons_same (a : Char) (as bs : List Char) :
    lexLtCh (a :: as) (a :: bs) = lexLtCh as bs := by
  rw [lexLtCh_cons]
  simp

lemma lexLtCh_cons_lt {a b : Char} (h : a.toNat < b.toNat) (as bs : List Char) :
    lexLtCh (a :: as) (b :: bs) = true := by
  rw [lexLtCh_cons, if_pos h]

lemma lexLtCh_cons_gt {a b : Char} (h : b.toNat < a.toNat) (as bs : List Char) :
    lexLtCh (a :: as) (b :: bs) = false := by
  rw [lexLtCh_cons, if_neg (by omega), if_pos h]

lemma lexLtCh_cons_eqn {a b : Char} (h : a.toNat = b.toNat) (as bs : List Char) :
    lexLtCh (a :: as) (b :: bs) = lexLtCh as bs := by
  rw [lexLtCh_cons, if_neg (by omega), if_neg (by omega)]

lemma dateValChars_eq (y1 y2 y3 y4 x m1 m2 y d1 d2 : Char) :
    dateValChars [y1, y2, y3, y4, x, m1, m2, y, d1, d2] =
      ((((y1.toNat - 48) * 10 + (y2.toNat - 48)) * 10 + (y3.toNat - 48)) * 10 +
          (y4.toNat - 48)) * 10000 +
        ((m1.toNat - 48) * 10 + (m2.toNat - 48)) * 100 +
        ((d1.toNat - 48) * 10 + (d2.toNat - 48)) :=
  rfl

set_option maxHeartbeats 1000000 in
lemma lexLt_fixed10 (a1 a2 a3 a4 a5 a6 a7 a8 b1 b2 b3 b4 b5 b6 b7 b8 : Char)
    (ha1 : 48 ≤ a1.toNat ∧ a1.toNat ≤ 57) (ha2 : 48 ≤ a2.toNat ∧ a2.toNat ≤ 57)
    (ha3 : 48 ≤ a3.toNat ∧ a3.toNat ≤ 57) (ha4 : 48 ≤ a4.toNat ∧ a4.toNat ≤ 57)
    (ha5 : 48 ≤ a5.toNat ∧ a5.toNat ≤ 57) (ha6 : 48 ≤ a6.toNat ∧ a6.toNat ≤ 57)
    (ha7 : 48 ≤ a7.toNat ∧ a7.toNat ≤ 57) (ha8 : 48 ≤ a8.toNat ∧ a8.toNat ≤ 57)
    (hb1 : 48 ≤ b1.toNat ∧ b1.toNat ≤ 57) (hb2 : 48 ≤ b2.toNat ∧ b2.toNat ≤ 57)
    (hb3 : 48 ≤ b3.toNat ∧ b3.toNat ≤ 57) (hb4 : 48 ≤ b4.toNat ∧ b4.toNat ≤ 57)
    (hb5 : 48 ≤ b5.toNat ∧ b5.toNat ≤ 57) (hb6 : 48 ≤ b6.toNat ∧ b6.toNat ≤ 57)
    (hb7 : 48 ≤ b7.toNat ∧ b7.toNat ≤ 57) (hb8 : 48 ≤ b8.toNat ∧ b8.toNat ≤ 57) :
    lexLtCh [a1, a2, a3, a4, '-', a5, a6, '-', a7, a8]
        [b1, b2, b3, b4, '-', b5, b6, '-', b7, b8] = true ↔
      dateValChars [a1, a2, a3, a4, '-', a5, a6, '-', a7, a8] <
        dateValChars [b1, b2, b3, b4, '-', b5, b6, '-', b7, b8] := by
  rw [dateValChars_eq, dateValChars_eq]
  rcases Nat.lt_trichotomy a1.toNat b1.toNat with h1 | h1 | h1
  · rw [lexLtCh_cons_lt h1]
    exact iff_of_true rfl (by omega)
  · rw [lexLtCh_cons_eqn h1]
    rcases Nat.lt_trichotomy a2.toNat b2.toNat with h2 | h2 | h2
    · rw [lexLtCh_cons_lt h2]
      exact iff_of_true rfl (by omega)
    · rw [lexLtCh_cons_eqn h2]
      rcases Nat.lt_trichotomy a3.toNat b3.toNat with h3 | h3 | h3
      · rw [lexLtCh_cons_lt h3]
        exact iff_of_true rfl (by omega)
      · rw [lexLtCh_cons_eqn h3]
        rcases Nat.lt_trichotomy a4.toNat b4.toNat with h4 | h4 | h4
        · rw [lexLtCh_cons_lt h4]
          exact iff_of_true rfl (by omega)
        · rw [lexLtCh_cons_eqn h4, lexLtCh_cons_same]
          rcases Nat.lt_trichotomy a5.toNat b5.toNat with h5 | h5 | h5
          · rw [lexLtCh_cons_lt h5]
            exact iff_of_true rfl (by omega)
          · rw [lexLtCh_cons_eqn h5]
            rcases Nat.lt_trichotomy a6.toNat b6.toNat with h6 | h6 | h6
            · rw [lexLtCh_cons_lt h6]
              exact iff_of_true rfl (by omega)
            · rw [lexLtCh_cons_eqn h6, lexLtCh_cons_same]
              rcases Nat.lt_trichotomy a7.toNat b7.toNat with h7 | h7 | h7
              · rw [lexLtCh_cons_lt h7]
                exact iff_of_true rfl (by omega)
              · rw [lexLtCh_cons_eqn h7]
                rcases Nat.lt_trichotomy a8.toNat b8.toNat with h8 | h8 | h8
                · rw [lexLtCh_cons_lt h8]
                  exact iff_of_true rfl (by omega)
                · rw [lexLtCh_cons_eqn h8]
                  exact iff_of_false (by decide) (by omega)
                · rw [lexLtCh_cons_gt h8]
                  exact iff_of_false (by decide) (by omega)
              · rw [lexLtCh_cons_gt h7]
                exact iff_of_false (by decide) (by omega)
            · rw [lexLtCh_cons_gt h6]
              exact iff_of_false (by decide) (by omega)
          · rw [lexLtCh_cons_gt h5]
            exact iff_of_false (by decide) (by omega)
        · rw [lexLtCh_cons_gt h4]
          exact iff_of_false (by decide) (by omega)
      · rw [lexLtCh_cons_gt h3]
        exact iff_of_false (by decide) (by omega)
    · rw [lexLtCh_cons_gt h2]
      exact iff_of_false (by decide) (by omega)
  · rw [lexLtCh_cons_gt h1]
    exact iff_of_false (by decide) (by omega)

/-- JavaScript string comparison on two valid `YYYY-MM-DD` strings is
exactly comparison of their calendar values. -/
lemma lexLt_iff_dateVal_lt (s t : String) (hs : isValidISO s = true)
    (ht : isValidISO t = true) :
    lexLtCh s.toList t.toList = true ↔ dateVal s < dateVal t := by
  obtain ⟨a1, a2, a3, a4, a5, a6, a7, a8, hsl, ha1, ha2, ha3, ha4, ha5, ha6, ha7, ha8⟩ :=
    validISO_shape s hs
  obtain ⟨b1, b2, b3, b4, b5, b6, b7, b8, htl, hb1, hb2, hb3, hb4, hb5, hb6, hb7, hb8⟩ :=
    validISO_shape t ht
  unfold dateVal
  rw [hsl, htl]
  exact lexLt_fixed10 a1 a2 a3 a4 a5 a6 a7 a8 b1 b2 b3 b4 b5 b6 b7 b8
    ha1 ha2 ha3 ha4 ha5 ha6 ha7 ha8 hb1 hb2 hb3 hb4 hb5 hb6 hb7 hb8

/-! ## C5: the tagged timeline rows -/

lemma lookup_mem {α β : Type} [BEq α] [LawfulBEq α] {l : List (α × β)} {p : α} {v : β}
    (h : l.lookup p = some v) : (p, v) ∈ l := by
  induction l with
  | nil => cases h
  | cons kv t ih =>
    obtain ⟨k, b⟩ := kv
    rw [List.lookup_cons] at h
    by_cases hk : (p == k) = true
    · rw [hk] at h
      cases h
      have hpk : p = k := by simpa using hk
      subst hpk
      exact List.mem_cons_self _ _
    · have hk' : (p == k) = false := by
        cases hx : p == k with
        | true => exact absurd hx hk
        | false => rfl
      rw [hk'] at h
      exact List.mem_cons_of_mem _ (ih h)

lemma mem_fst_lookup {α β : Type} [BEq α] [LawfulBEq α] {l : List (α × β)} {p : α}
    (h : p ∈ l.map Prod.fst) : ∃ v, l.lookup p = some v := by
  induction l with
  | nil => simp at h
  | cons kv t ih =>
    obtain ⟨k, b⟩ := kv
    rw [List.map_cons, List.mem_cons] at h
    by_cases hk : (p == k) = true
    · exact ⟨b, by rw [List.lookup_cons]; rw [hk]⟩
    · have hk' : (p == k) = false := by
        cases hx : p == k with
        | true => exact absurd hx hk
        | false => rfl
      rcases h with h | h
      · exact absurd (by simpa using h : (p == k) = true) hk
      · obtain ⟨v, hv⟩ := ih h
        exact ⟨v, by rw [List.lookup_cons]; rw [hk']; exact hv⟩

lemma isDateInRange_true (st : ChartState) (h1 : st.startDate = none)
    (h2 : st.endDate = none) (d : String) : isDateInRange st d = true := by
  unfold isDateInRange
  rw [h1, h2]
  rfl

lemma mem_taggedData (st : ChartState) (ids : List String) (x : String × TimelinePoint) :
    x ∈ taggedData st ids ↔
      x.1 ∈ ids ∧ ∃ pts, st.multiPlantData.lookup x.1 = some pts ∧
        x.2 ∈ pts ∧ isDateInRange st x.2.date = true := by
  unfold taggedData
  rw [List.mem_flatMap]
  constructor
  · rintro ⟨p, hp, hx⟩
    cases hl : st.multiPlantData.lookup p with
    | none => rw [hl] at hx; cases hx
    | some pts =>
      rw [hl] at hx
      obtain ⟨tp, htp, rfl⟩ := List.mem_map.mp hx
      obtain ⟨htpm, htpr⟩ := List.mem_filter.mp htp
      exact ⟨hp, pts, hl, htpm, htpr⟩
  · rintro ⟨hp, pts, hl, htp, hr⟩
    refine ⟨x.1, hp, ?_⟩
    rw [hl]
    refine List.mem_map.mpr ⟨x.2, List.mem_filter.mpr ⟨htp, hr⟩, rfl⟩

lemma taggedData_cons (st : ChartState) (q : String) (t : List String) :
    taggedData st (q :: t) =
      (match st.multiPlantData.lookup q with
       | some pts => (pts.filter (fun tp => isDateInRange st tp.date)).map (fun tp => (q, tp))
       | none => []) ++ taggedData st t := by
  unfold taggedData
  rw [List.flatMap_cons]

lemma taggedData_filter_self (st : ChartState) (ids : List String) (p : String)
    (pts : List TimelinePoint) (hnd : ids.Nodup) (hp : p ∈ ids)
    (hl : st.multiPlantData.lookup p = some pts)
    (hr : ∀ d, isDateInRange st d = true) :
    ((taggedData st ids).filter (fun x => x.1 == p)).map Prod.snd = pts := by
  induction ids with
  | nil => cases hp
  | cons q t ih =>
    rw [taggedData_cons, List.filter_append, List.map_append]
    have htail_fst : ∀ x ∈ taggedData st t, x.1 ∈ t := by
      intro x hx
      exact ((mem_taggedData st t x).mp hx).1
    by_cases hq : q = p
    · subst hq
      have hqt : q ∉ t := (List.nodup_cons.mp hnd).1
      have htail : (taggedData st t).filter (fun x => x.1 == q) = [] := by
        rw [List.filter_eq_nil_iff]
        intro x hx
        have hxt := htail_fst x hx
        simp only [beq_iff_eq]
        intro hxq
        rw [hxq] at hxt
        exact hqt hxt
      rw [htail, hl]
      have hmatch : ((match some pts with
          | some pts0 => (pts0.filter (fun tp => isDateInRange st tp.date)).map
              (fun tp => (q, tp))
          | none => ([] : List (String × TimelinePoint)))) =
          (pts.filter (fun tp => isDateInRange st tp.date)).map (fun tp => (q, tp)) := rfl
      rw [hmatch]
      have hfr : pts.filter (fun tp => isDateInRange st tp.date) = pts :=
        List.filter_eq_self.mpr (fun tp _ => hr tp.date)
      rw [hfr]
      have hfilt : (pts.map (fun tp => (q, tp))).filter (fun x => x.1 == q) =
          pts.map (fun tp => (q, tp)) := by
        apply List.filter_eq_self.mpr
        intro x hx
        obtain ⟨tp, _, rfl⟩ := List.mem_map.mp hx
        simp
      rw [hfilt, List.map_map, List.map_nil, List.append_nil]
      simp
    · have hpt : p ∈ t := by
        rcases List.mem_cons.mp hp with h | h
        · exact absurd h.symm hq
        · exact h
      have hhead : ((match st.multiPlantData.lookup q with
          | some pts0 => (pts0.filter (fun tp => isDateInRange st tp.date)).map
              (fun tp => (q, tp))
          | none => []) : List (String × TimelinePoint)).filter
            (fun x => x.1 == p) = [] := by
        rw [List.filter_eq_nil_iff]
        intro x hx
        cases hlq : st.multiPlantData.lookup q with
        | none => rw [hlq] at hx; cases hx
        | some pts0 =>
          rw [hlq] at hx
          obtain ⟨tp, _, rfl⟩ := List.mem_map.mp hx
          simp only [beq_iff_eq]
          exact hq
      rw [hhead, List.map_nil, List.nil_append]
      exact ih (List.nodup_cons.mp hnd).2 hpt

/-! ## C5: the aggregated chart data -/

lemma string_toList_inj {s t : String} (h : s.toList = t.toList) : s = t := by
  cases s
  cases t
  exact congrArg String.mk (by simpa [String.toList] using h)

lemma getChartData_eq (st : ChartState) (hsel : st.selectedPlantIds ≠ [])
    (hne : taggedData st st.selectedPlantIds ≠ []) :
    getChartData st =
      (List.insertionSort dateLe
        (dedupFirst ((taggedData st st.selectedPlantIds).map (fun x => x.2.date))),
       st.selectedPlantIds.flatMap (fun p =>
         (statList st).map (fun k =>
           Dataset.mk p k
             (seriesFor (taggedData st st.selectedPlantIds)
               (List.insertionSort dateLe
                 (dedupFirst ((taggedData st st.selectedPlantIds).map (fun x => x.2.date))))
               p k)))) := by
  have h1 : st.selectedPlantIds.isEmpty = false := by
    cases hsl : st.selectedPlantIds with
    | nil => exact absurd hsl hsel
    | cons a l => rfl
  have h2 : (taggedData st st.selectedPlantIds).isEmpty = false := by
    cases hsl : taggedData st st.selectedPlantIds with
    | nil => exact absurd hsl hne
    | cons a l => rfl
  unfold getChartData
  simp only [h1, h2, Bool.not_false, if_true, Bool.false_eq_true, if_false]

/-- C5 — With no date-range restriction, the shared axis of `getChartData`
is exactly the union of the dates of the selected plants' loaded rows,
strictly ascending by calendar value (not by the locale-formatted label),
and for every (selected plant, enabled statistic) pair there is a dataset
whose value array is aligned 1:1 with the axis and holds `null` at exactly
the axis dates for which that plant has no row. -/
theorem timeline_axis_alignment (st : ChartState)
    (hsel : st.selectedPlantIds ≠ [])
    (hnd : st.selectedPlantIds.Nodup)
    (hstart : st.startDate = none) (hend : st.endDate = none)
    (hvalid : ∀ x ∈ st.multiPlantData, ∀ tp ∈ x.2, isValidISO tp.date = true)
    (hne : taggedData st st.selectedPlantIds ≠ []) :
    (∀ d, d ∈ (getChartData st).1 ↔
      ∃ p ∈ st.selectedPlantIds, ∃ pts, st.multiPlantData.lookup p = some pts ∧
        ∃ tp ∈ pts, tp.date = d) ∧
    (getChartData st).1.Pairwise (fun a b => dateVal a < dateVal b) ∧
    (∀ p pts, p ∈ st.selectedPlantIds → st.multiPlantData.lookup p = some pts →
      ∀ k, k ∈ statList st →
        ∃ ds, ds ∈ (getChartData st).2 ∧ ds.plantId = p ∧ ds.statistic = k ∧
          ds.data.length = (getChartData st).1.length ∧
          (∀ i, i < (getChartData st).1.length →
            (ds.data.getD i none = none ↔
              (getChartData st).1.getD i "" ∉ pts.map TimelinePoint.date))) := by
  have hr : ∀ d, isDateInRange st d = true := isDateInRange_true st hstart hend
  have hEq := getChartData_eq st hsel hne
  have hax : (getChartData st).1 =
      List.insertionSort dateLe
        (dedupFirst ((taggedData st st.selectedPlantIds).map (fun x => x.2.date))) := by
    rw [hEq]
  have hperm : List.Perm
      (List.insertionSort dateLe
        (dedupFirst ((taggedData st st.selectedPlantIds).map (fun x => x.2.date))))
      (dedupFirst ((taggedData st st.selectedPlantIds).map (fun x => x.2.date))) :=
    List.perm_insertionSort dateLe _
  have hmem : ∀ d, d ∈ (getChartData st).1 ↔
      ∃ p ∈ st.selectedPlantIds, ∃ pts, st.multiPlantData.lookup p = some pts ∧
        ∃ tp ∈ pts, tp.date = d := by
    intro d
    rw [hax, hperm.mem_iff, mem_dedupFirst, List.mem_map]
    constructor
    · rintro ⟨x, hx, hdate⟩
      obtain ⟨hp, pts, hl, htp, -⟩ := (mem_taggedData st st.selectedPlantIds x).mp hx
      exact ⟨x.1, hp, pts, hl, x.2, htp, hdate⟩
    · rintro ⟨p, hp, pts, hl, tp, htp, hdate⟩
      refine ⟨(p, tp), (mem_taggedData st st.selectedPlantIds (p, tp)).mpr
        ⟨hp, pts, hl, htp, hr tp.date⟩, hdate⟩
  have hvalidax : ∀ d ∈ (getChartData st).1, isValidISO d = true := by
    intro d hd
    obtain ⟨p, hp, pts, hl, tp, htp, hdate⟩ := (hmem d).mp hd
    have hx := hvalid (p, pts) (lookup_mem hl) tp htp
    rw [hdate] at hx
    exact hx
  refine ⟨hmem, ?_, ?_⟩
  · have hsorted : (getChartData st).1.Pairwise dateLe := by
      rw [hax]
      exact List.sorted_insertionSort dateLe _
    have hnodupax : (getChartData st).1.Nodup := by
      rw [hax]
      exact hperm.symm.nodup (nodup_dedupFirst _)
    refine (hsorted.and hnodupax).imp_of_mem ?_
    intro a b ha hb hab
    obtain ⟨hle, hne'⟩ := hab
    have hva := hvalidax a ha
    have hvb := hvalidax b hb
    rcases lexLtCh_trichotomy a.toList b.toList with h | h | h
    · exact (lexLt_iff_dateVal_lt a b hva hvb).mp h
    · exact absurd (string_toList_inj h) hne'
    · unfold dateLe at hle
      rw [hle] at h
      cases h
  · intro p pts hp hl k hk
    refine ⟨Dataset.mk p k
      (seriesFor (taggedData st st.selectedPlantIds)
        (List.insertionSort dateLe
          (dedupFirst ((taggedData st st.selectedPlantIds).map (fun x => x.2.date))))
        p k), ?_, rfl, rfl, ?_, ?_⟩
    · rw [hEq]
      exact List.mem_flatMap.mpr ⟨p, hp, List.mem_map.mpr ⟨k, hk, rfl⟩⟩
    · rw [hax]
      exact List.length_map _ _
    · intro i hi
      rw [hax] at hi ⊢
      set A := List.insertionSort dateLe
        (dedupFirst ((taggedData st st.selectedPlantIds).map (fun x => x.2.date))) with hA
      unfold seriesFor
      rw [getD_map_lt _ _ i hi "" none]
      rw [taggedData_filter_self st st.selectedPlantIds p pts hnd hp hl hr]
      by_cases hd : A.getD i "" ∈ pts.map TimelinePoint.date
      · obtain ⟨tp, htp, hdate⟩ := List.mem_map.mp hd
        cases hgl : (pts.filter (fun tp => tp.date == A.getD i "")).getLast? with
        | none =>
          rw [List.getLast?_eq_none_iff] at hgl
          rw [List.filter_eq_nil_iff] at hgl
          exact absurd (by simpa using hdate) (by simpa using hgl tp htp)
        | some tp0 =>
          exact iff_of_false (by simp) (by simpa using hd)
      · have hfl : pts.filter (fun tp => tp.date == A.getD i "") = [] := by
          rw [List.filter_eq_nil_iff]
          intro tp htp
          simp only [beq_iff_eq]
          intro hdate
          exact hd (List.mem_map.mpr ⟨tp, htp, hdate⟩)
        rw [hfl]
        exact iff_of_true rfl hd

/-- The spec's worked example: P1 has rows on Jan 1 and Jan 2, P2 on Jan 2
and Jan 3; both plants are selected, only the mean statistic is enabled. -/
def exampleTimelineState : ChartState where
  selectedPlantIds := ["P1", "P2"]
  actualPlantId := none
  multiPlantData :=
    [("P1", [⟨"2024-01-01", 1, 1, 0, 1, 1, 1, 1⟩, ⟨"2024-01-02", 2, 2, 0, 2, 2, 2, 2⟩]),
     ("P2", [⟨"2024-01-02", 3, 3, 0, 3, 3, 3, 3⟩, ⟨"2024-01-03", 4, 4, 0, 4, 4, 4, 4⟩])]
  startDate := none
  endDate := none
  showMean := true
  showMedian := false
  showStd := false
  showQ25 := false
  showQ75 := false
  showMin := false
  showMax := false

/-- Witness for `timeline_axis_alignment` on the spec's example: the axis
is strictly ascending in calendar value, 2024-01-03 is on the axis, and
P1's mean series is aligned 1:1 with the axis with null exactly at the
dates P1 lacks. -/
theorem timeline_axis_alignment_witness :
    (getChartData exampleTimelineState).1.Pairwise (fun a b => dateVal a < dateVal b) ∧
    ("2024-01-03" ∈ (getChartData exampleTimelineState).1) ∧
    (∃ ds, ds ∈ (getChartData exampleTimelineState).2 ∧ ds.plantId = "P1" ∧
      ds.statistic = StatKind.mean ∧
      ds.data.length = (getChartData exampleTimelineState).1.length ∧
      (∀ i, i < (getChartData exampleTimelineState).1.length →
        (ds.data.getD i none = none ↔
          (getChartData exampleTimelineState).1.getD i "" ∉
            ([(⟨"2024-01-01", 1, 1, 0, 1, 1, 1, 1⟩ : TimelinePoint),
              ⟨"2024-01-02", 2, 2, 0, 2, 2, 2, 2⟩]).map TimelinePoint.date))) := by
  have h := timeline_axis_alignment exampleTimelineState (by decide) (by decide) rfl rfl
    (by decide) (by decide)
  refine ⟨h.2.1, ?_, ?_⟩
  · exact (h.1 "2024-01-03").mpr
      ⟨"P2", by decide, [⟨"2024-01-02", 3, 3, 0, 3, 3, 3, 3⟩, ⟨"2024-01-03", 4, 4, 0, 4, 4, 4, 4⟩],
        by decide, ⟨"2024-01-03", 4, 4, 0, 4, 4, 4, 4⟩, by decide, rfl⟩
  · exact h.2.2 "P1"
      [⟨"2024-01-01", 1, 1, 0, 1, 1, 1, 1⟩, ⟨"2024-01-02", 2, 2, 0, 2, 2, 2, 2⟩]
      (by decide) (by decide) StatKind.mean (by decide)
